import Mathlib

/-!
Shallow embedding of the xml mesh exporter (src/xml_exporter.py).
Numeric values carried by the scene snapshot (positions, normals, UV
coordinates, keyframe times and values, matrix entries) are modelled as
exact rationals; machinery that the source obtains from the host
application (mathutils matrices/vectors, ElementTree elements, Python
dicts) is embedded explicitly below.  Python dicts are modelled with
insertion-ordered association lists, matching the dict semantics the
interpreter guarantees: a new key is appended at the end, an existing key
is updated in place.
-/

set_option maxRecDepth 4000

/-- 3-component vector (mathutils Vector of length 3). -/
abbrev Vec3 := ℚ × ℚ × ℚ

/-- 4-component vector, stored in (x, y, z, w) order as the source builds
them for quaternion data (mathutils Vector of length 4). -/
abbrev Vec4 := ℚ × ℚ × ℚ × ℚ

/-- A 4x4 matrix with explicit rational entries (mathutils Matrix). -/
structure Mat4 where
  a00 : ℚ
  a01 : ℚ
  a02 : ℚ
  a03 : ℚ
  a10 : ℚ
  a11 : ℚ
  a12 : ℚ
  a13 : ℚ
  a20 : ℚ
  a21 : ℚ
  a22 : ℚ
  a23 : ℚ
  a30 : ℚ
  a31 : ℚ
  a32 : ℚ
  a33 : ℚ
deriving DecidableEq

/-- The 4x4 identity matrix. -/
def mat4Id : Mat4 :=
  ⟨1, 0, 0, 0,
   0, 1, 0, 0,
   0, 0, 1, 0,
   0, 0, 0, 1⟩

/-- Matrix product of two 4x4 matrices (mathutils Matrix multiplication). -/
def mat4Mul (a b : Mat4) : Mat4 :=
  ⟨a.a00 * b.a00 + a.a01 * b.a10 + a.a02 * b.a20 + a.a03 * b.a30,
   a.a00 * b.a01 + a.a01 * b.a11 + a.a02 * b.a21 + a.a03 * b.a31,
   a.a00 * b.a02 + a.a01 * b.a12 + a.a02 * b.a22 + a.a03 * b.a32,
   a.a00 * b.a03 + a.a01 * b.a13 + a.a02 * b.a23 + a.a03 * b.a33,
   a.a10 * b.a00 + a.a11 * b.a10 + a.a12 * b.a20 + a.a13 * b.a30,
   a.a10 * b.a01 + a.a11 * b.a11 + a.a12 * b.a21 + a.a13 * b.a31,
   a.a10 * b.a02 + a.a11 * b.a12 + a.a12 * b.a22 + a.a13 * b.a32,
   a.a10 * b.a03 + a.a11 * b.a13 + a.a12 * b.a23 + a.a13 * b.a33,
   a.a20 * b.a00 + a.a21 * b.a10 + a.a22 * b.a20 + a.a23 * b.a30,
   a.a20 * b.a01 + a.a21 * b.a11 + a.a22 * b.a21 + a.a23 * b.a31,
   a.a20 * b.a02 + a.a21 * b.a12 + a.a22 * b.a22 + a.a23 * b.a32,
   a.a20 * b.a03 + a.a21 * b.a13 + a.a22 * b.a23 + a.a23 * b.a33,
   a.a30 * b.a00 + a.a31 * b.a10 + a.a32 * b.a20 + a.a33 * b.a30,
   a.a30 * b.a01 + a.a31 * b.a11 + a.a32 * b.a21 + a.a33 * b.a31,
   a.a30 * b.a02 + a.a31 * b.a12 + a.a32 * b.a22 + a.a33 * b.a32,
   a.a30 * b.a03 + a.a31 * b.a13 + a.a32 * b.a23 + a.a33 * b.a33⟩

/-- Application of a 4x4 matrix to a 3-component vector.  mathutils treats
the vector as a point with homogeneous coordinate 1, so the translation
column is added (Matrix * Vector with a length-3 vector). -/
def mat4ApplyPoint (m : Mat4) (v : Vec3) : Vec3 :=
  (m.a00 * v.1 + m.a01 * v.2.1 + m.a02 * v.2.2 + m.a03,
   m.a10 * v.1 + m.a11 * v.2.1 + m.a12 * v.2.2 + m.a13,
   m.a20 * v.1 + m.a21 * v.2.1 + m.a22 * v.2.2 + m.a23)

/-- Application of a 4x4 matrix to a 4-component vector (plain
matrix-vector product, as mathutils does for a length-4 vector). -/
def mat4ApplyVec4 (m : Mat4) (v : Vec4) : Vec4 :=
  (m.a00 * v.1 + m.a01 * v.2.1 + m.a02 * v.2.2.1 + m.a03 * v.2.2.2,
   m.a10 * v.1 + m.a11 * v.2.1 + m.a12 * v.2.2.1 + m.a13 * v.2.2.2,
   m.a20 * v.1 + m.a21 * v.2.1 + m.a22 * v.2.2.1 + m.a23 * v.2.2.2,
   m.a30 * v.1 + m.a31 * v.2.1 + m.a32 * v.2.2.1 + m.a33 * v.2.2.2)

/-- Determinant of a 3x3 matrix given by its nine entries. -/
def det3 (a b c d e f g h i : ℚ) : ℚ :=
  a * (e * i - f * h) - b * (d * i - f * g) + c * (d * h - e * g)

/-- Determinant of a 4x4 matrix (cofactor expansion along the first row),
the value mathutils Matrix.determinant() computes. -/
def det4 (m : Mat4) : ℚ :=
  m.a00 * det3 m.a11 m.a12 m.a13 m.a21 m.a22 m.a23 m.a31 m.a32 m.a33
    - m.a01 * det3 m.a10 m.a12 m.a13 m.a20 m.a22 m.a23 m.a30 m.a32 m.a33
    + m.a02 * det3 m.a10 m.a11 m.a13 m.a20 m.a21 m.a23 m.a30 m.a31 m.a33
    - m.a03 * det3 m.a10 m.a11 m.a12 m.a20 m.a21 m.a22 m.a30 m.a31 m.a32

/-- get_without_translation: matrix.copy().to_3x3().to_4x4() — keeps the
upper-left 3x3 block and replaces the fourth row and column by the
identity's. -/
def get_without_translation (m : Mat4) : Mat4 :=
  ⟨m.a00, m.a01, m.a02, 0,
   m.a10, m.a11, m.a12, 0,
   m.a20, m.a21, m.a22, 0,
   0, 0, 0, 1⟩

/-- get_rotation: the source computes
get_without_translation(m).to_quaternion().to_matrix().to_4x4().
The quaternion round trip involves square roots, so it has no exact ℚ
embedding; on a proper orthonormal rotation block (determinant +1) it is
the identity, and it is embedded here as the translation-free part of
the matrix.  The embedding therefore agrees with the source exactly on
such blocks — the fixed axis-change rotation, the only concrete input
whose image a theorem below inspects; no theorem states a property of
this function quantified over arbitrary matrices (where the embedding
and the source diverge, since the source's round trip always returns a
determinant-+1 matrix). -/
def get_rotation (m : Mat4) : Mat4 :=
  get_without_translation m

/-- flips_chirality: whether the matrix turns meshes into their mirror
image, i.e. its determinant is negative. -/
def flips_chirality (m : Mat4) : Bool :=
  decide (det4 m < 0)

/-- Exporter.transform_vertex = Matrix.Rotation(radians(-90), 4, 'X').
A rotation about X by angle t maps y to cos t * y - sin t * z and
z to sin t * y + cos t * z; at t = -90 degrees cos t = 0 and sin t = -1,
giving exactly this matrix. -/
def transform_vertex : Mat4 :=
  ⟨1, 0, 0, 0,
   0, 0, 1, 0,
   0, -1, 0, 0,
   0, 0, 0, 1⟩

/-- Exporter.transform_displacement = get_without_translation(transform_vertex). -/
def transform_displacement : Mat4 :=
  get_without_translation transform_vertex

/-- Exporter.transform_rotation = get_rotation(transform_vertex). -/
def transform_rotation : Mat4 :=
  get_rotation transform_vertex

/-- Whether the character list `p` is a prefix of `l`. -/
def listPrefixEq : List Char → List Char → Bool
  | _, [] => true
  | [], _ :: _ => false
  | a :: l, b :: p => a == b && listPrefixEq l p

/-- Whether the character list `p` occurs contiguously inside `l`. -/
def listContainsSub : List Char → List Char → Bool
  | [], p => listPrefixEq [] p
  | a :: t, p => listPrefixEq (a :: t) p || listContainsSub t p

/-- Whether the string `pat` occurs as a substring of `s` (used to state
whether an error message names an offending path or id). -/
def strContains (s pat : String) : Bool :=
  listContainsSub s.data pat.data

/-- Python str.endswith: whether `pat` is a suffix of `s`. -/
def strEndsWith (s pat : String) : Bool :=
  decide (s.data.drop (s.data.length - pat.data.length) = pat.data)

/-- Round n / d to the nearest integer, ties to even — the rounding the
host's float formatting applies to the fractional digits. -/
def roundHalfEven (n d : ℕ) : ℕ :=
  let q := n / d
  let r := n % d
  if 2 * r < d then q
  else if d < 2 * r then q + 1
  else if q % 2 = 0 then q else q + 1

/-- Fuel-driven base-10 logarithm, structurally recursive so that closed
instances reduce inside the kernel. -/
def log10fuel : ℕ → ℕ → ℕ
  | 0, _ => 0
  | fuel + 1, n => if n < 10 then 0 else log10fuel fuel (n / 10) + 1

/-- Base-10 logarithm of a positive natural, rounded down. -/
def log10 (n : ℕ) : ℕ :=
  log10fuel n n

/-- Decimal exponent of the positive rational n / d: the integer e with
10 ^ e <= n / d < 10 ^ (e + 1) (n, d >= 1). -/
def sciExp (n d : ℕ) : ℤ :=
  if d ≤ n then (log10 (n / d) : ℤ)
  else
    let k := log10 (d / n)
    if d ≤ 10 ^ k * n then -(k : ℤ) else -((k : ℤ) + 1)

/-- The decimal digits of `n`, exactly `width` characters wide, most
significant digit first (n < 10 ^ width). -/
def natDigitsFix : ℕ → ℕ → List Char
  | 0, _ => []
  | w + 1, n => natDigitsFix w (n / 10) ++ [Nat.digitChar (n % 10)]

/-- The decimal digits of `n`, most significant first, at least one digit. -/
def natDigits (n : ℕ) : List Char :=
  if _h : n < 10 then [Nat.digitChar n]
  else natDigits (n / 10) ++ [Nat.digitChar (n % 10)]
decreasing_by
  exact Nat.div_lt_self (by omega) (by omega)

/-- The five-significant-digit decimal mantissa (scaled to an integer in
[10^4, 10^5)) and decimal exponent of the positive rational n / d: round
half to even at four fractional digits, carrying into the exponent when
the rounding overflows to 10.0000. -/
def sciMantExp (n d : ℕ) : ℕ × ℤ :=
  let e := sciExp n d
  let r := roundHalfEven (n * 10 ^ (4 - e).toNat) (d * 10 ^ (e - 4).toNat)
  if r = 100000 then (10000, e + 1) else (r, e)

/-- The rendered text of a scientific-notation value: optional minus
sign, the mantissa digit and four fractional digits, 'e', the exponent
sign (always present) and the exponent, at least two digits wide. -/
def renderSci (neg : Bool) (n2 : ℕ) (e2 : ℤ) : String :=
  String.mk ((if neg then ['-'] else []) ++
    (Nat.digitChar (n2 / 10000) :: '.' :: natDigitsFix 4 (n2 % 10000)) ++
    'e' :: (if e2 < 0 then '-' else '+') ::
      (if e2.natAbs < 10 then ['0', Nat.digitChar e2.natAbs] else natDigits e2.natAbs))

/-- format_float: the text form of a floating point attribute value, the
format spec `.4e` — normalized scientific notation with exactly four
fractional digits, round half to even, exponent sign always present and
the exponent at least two digits wide. -/
def format_float (q : ℚ) : String :=
  if q = 0 then "0.0000e+00"
  else
    renderSci (decide (q < 0)) (sciMantExp q.num.natAbs q.den).1
      (sciMantExp q.num.natAbs q.den).2

/-- Boolean check: a list of characters that are all decimal digits. -/
def digitsOnly : List Char → Bool
  | [] => true
  | c :: r => c.isDigit && digitsOnly r

/-- Boolean check for the exponent part after the 'e': a sign character
followed by at least two digit characters. -/
def sciCheckExp : List Char → Bool
  | c :: r => (c == '+' || c == '-') && decide (2 ≤ r.length) && digitsOnly r
  | [] => false

/-- Boolean check for mantissa-and-exponent: one digit, a point, four
digits, an 'e', then a well-formed exponent. -/
def sciCheckMant : List Char → Bool
  | c0 :: '.' :: d1 :: d2 :: d3 :: d4 :: 'e' :: rest =>
    c0.isDigit && d1.isDigit && d2.isDigit && d3.isDigit && d4.isDigit &&
      sciCheckExp rest
  | _ => false

/-- Boolean check that a string has the shape of the four-fractional-digit
scientific notation contract: an optional minus sign, one digit, a point,
four digits, 'e', a sign and at least two exponent digits. -/
def isSciFormat (s : String) : Bool :=
  match s.data with
  | [] => false
  | c :: rest => if c = '-' then sciCheckMant rest else sciCheckMant (c :: rest)

/-- The first mantissa digit of a rendered float (skipping a minus sign),
used to state normalization. -/
def mantissaHead (s : String) : Option Char :=
  match s.data with
  | [] => none
  | c :: rest => if c = '-' then rest.head? else some c


/-- CurvePropertyType: maps fcurve data to variable ids. -/
inductive CurvePropertyType where
  | ROT_W
  | ROT_X
  | ROT_Y
  | ROT_Z
  | LOC_X
  | LOC_Y
  | LOC_Z
deriving DecidableEq

/-- get_curve_property_type path index.  A recognised suffix with an
out-of-range index falls off the end of the Python function and yields
None (modelled Except.ok none); a .scale suffix or an unrecognised suffix
raises TypeError (modelled Except.error with the raised message). -/
def get_curve_property_type (path : String) (index : ℕ) :
    Except String (Option CurvePropertyType) :=
  if strEndsWith path ".rotation_quaternion" then
    if index = 0 then Except.ok (some CurvePropertyType.ROT_W)
    else if index = 1 then Except.ok (some CurvePropertyType.ROT_X)
    else if index = 2 then Except.ok (some CurvePropertyType.ROT_Y)
    else if index = 3 then Except.ok (some CurvePropertyType.ROT_Z)
    else Except.ok none
  else if strEndsWith path ".location" then
    if index = 0 then Except.ok (some CurvePropertyType.LOC_X)
    else if index = 1 then Except.ok (some CurvePropertyType.LOC_Y)
    else if index = 2 then Except.ok (some CurvePropertyType.LOC_Z)
    else Except.ok none
  else if strEndsWith path ".scale" then
    Except.error "scale bone modifiers are not supported"
  else
    Except.error ("unsupported bone modifier: \"" ++ path ++ "\"")

/-- One time bucket of the `ordering` dict: the per-time partial record of
sampled property values.  The Python inner dict is keyed by the
classification result (an Option, since an out-of-range index yields the
None key); each key holds the last value written for it. -/
structure Props where
  rot_w : Option ℚ
  rot_x : Option ℚ
  rot_y : Option ℚ
  rot_z : Option ℚ
  loc_x : Option ℚ
  loc_y : Option ℚ
  loc_z : Option ℚ
  other : Option ℚ
deriving DecidableEq

/-- The empty per-time record. -/
def Props.empty : Props :=
  ⟨none, none, none, none, none, none, none, none⟩

/-- ordering[time][type] = value. -/
def Props.put (p : Props) (ty : Option CurvePropertyType) (v : ℚ) : Props :=
  match ty with
  | some CurvePropertyType.ROT_W => ⟨some v, p.rot_x, p.rot_y, p.rot_z, p.loc_x, p.loc_y, p.loc_z, p.other⟩
  | some CurvePropertyType.ROT_X => ⟨p.rot_w, some v, p.rot_y, p.rot_z, p.loc_x, p.loc_y, p.loc_z, p.other⟩
  | some CurvePropertyType.ROT_Y => ⟨p.rot_w, p.rot_x, some v, p.rot_z, p.loc_x, p.loc_y, p.loc_z, p.other⟩
  | some CurvePropertyType.ROT_Z => ⟨p.rot_w, p.rot_x, p.rot_y, some v, p.loc_x, p.loc_y, p.loc_z, p.other⟩
  | some CurvePropertyType.LOC_X => ⟨p.rot_w, p.rot_x, p.rot_y, p.rot_z, some v, p.loc_y, p.loc_z, p.other⟩
  | some CurvePropertyType.LOC_Y => ⟨p.rot_w, p.rot_x, p.rot_y, p.rot_z, p.loc_x, some v, p.loc_z, p.other⟩
  | some CurvePropertyType.LOC_Z => ⟨p.rot_w, p.rot_x, p.rot_y, p.rot_z, p.loc_x, p.loc_y, some v, p.other⟩
  | none => ⟨p.rot_w, p.rot_x, p.rot_y, p.rot_z, p.loc_x, p.loc_y, p.loc_z, some v⟩

/-- extract_rot: the Vector((x, y, z, w)) of the four rotation components
when all are present, None when data is missing. -/
def extract_rot (p : Props) : Option Vec4 :=
  match p.rot_w, p.rot_x, p.rot_y, p.rot_z with
  | some w, some x, some y, some z => some (x, y, z, w)
  | _, _, _, _ => none

/-- extract_loc: the Vector((x, y, z)) of the three location components
when all are present, None when data is missing. -/
def extract_loc (p : Props) : Option Vec3 :=
  match p.loc_x, p.loc_y, p.loc_z with
  | some x, some y, some z => some (x, y, z)
  | _, _, _ => none

/-- Python int() applied to a rational: truncation toward zero. -/
def pyint (q : ℚ) : ℤ :=
  Int.tdiv q.num (q.den : ℤ)

/-- One keyframe sample of one fcurve: keyframe.co = (time, value). -/
abbrev Sample := ℚ × ℚ

/-- One animation channel (bpy fcurve): data path, array index, ordered
keyframe samples. -/
structure FCurve where
  data_path : String
  array_index : ℕ
  keyframe_points : List Sample
deriving DecidableEq

/-- ordering[time][type] = value, creating the bucket on a fresh time.
Python dict semantics: an existing key keeps its position, a new key is
appended at the end. -/
def bucketInsert (ord : List (ℤ × Props)) (t : ℤ) (ty : Option CurvePropertyType) (v : ℚ) :
    List (ℤ × Props) :=
  match ord with
  | [] => [(t, Props.put Props.empty ty v)]
  | (t', p) :: rest =>
    if t' = t then (t', Props.put p ty v) :: rest
    else (t', p) :: bucketInsert rest t ty v

/-- The inner keyframe loop of one fcurve: every sample is bucketed under
its truncated time with the fcurve's classified property type. -/
def applyCurveSamples (ty : Option CurvePropertyType) (kfs : List Sample)
    (ord : List (ℤ × Props)) : List (ℤ × Props) :=
  kfs.foldl (fun o kf => bucketInsert o (pyint kf.1) ty kf.2) ord

/-- The channel loop building `ordering` for one (action, bone) pair: each
fcurve is classified (a classification error aborts the export), then its
samples are bucketed. -/
def collectOrderingAux : List FCurve → List (ℤ × Props) → Except String (List (ℤ × Props))
  | [], ord => Except.ok ord
  | fc :: rest, ord =>
    (get_curve_property_type fc.data_path fc.array_index).bind
      (fun ty => collectOrderingAux rest (applyCurveSamples ty fc.keyframe_points ord))

/-- The full `ordering` dict for a list of channels. -/
def collectOrdering (channels : List FCurve) : Except String (List (ℤ × Props)) :=
  collectOrderingAux channels []

/-- The bucket times of an ordering, in emission order. -/
def bucketKeys (ord : List (ℤ × Props)) : List ℤ :=
  ord.map Prod.fst

/-- The raw local rotation of a bucket: the bucketed (x, y, z, w) values
when all four rotation components are present, the identity quaternion
(0, 0, 0, 1) otherwise. -/
def resolveRot (p : Props) : Vec4 :=
  match extract_rot p with
  | some v => v
  | none => (0, 0, 0, 1)

/-- The raw local translation of a bucket: the bucketed (x, y, z) values
when all three location components are present, (0, 0, 0) otherwise. -/
def resolveLoc (p : Props) : Vec3 :=
  match extract_loc p with
  | some v => v
  | none => (0, 0, 0)

/-- One resolved keyframe as written to a key tag: integer frame offset,
rotation quaternion stored (x, y, z, w) and translation vector. -/
structure Key where
  frame : ℤ
  rot : Vec4
  loc : Vec3
deriving DecidableEq

/-- Quaternion.invert() on the (x, y, z, w) 4-tuple: the conjugate divided
by the squared magnitude. -/
def quatInvert (v : Vec4) : Vec4 :=
  let n := v.1 * v.1 + v.2.1 * v.2.1 + v.2.2.1 * v.2.2.1 + v.2.2.2 * v.2.2.2
  (-v.1 / n, -v.2.1 / n, -v.2.2.1 / n, v.2.2.2 / n)

/-- The body of the per-time key loop: frame = int(time - action_start);
rot = rot_matrix * get_rotation(bone_matrix) * raw rotation, inverted when
the chirality flips; loc = loc_matrix * get_without_translation(bone_matrix)
* raw translation. -/
def makeKey (flip : Bool) (rotM locM boneM : Mat4) (actionStart : ℚ)
    (tp : ℤ × Props) : Key :=
  let rawRot := resolveRot tp.2
  let rot0 := mat4ApplyVec4 (mat4Mul rotM (get_rotation boneM)) rawRot
  let rot := if flip then quatInvert rot0 else rot0
  let rawLoc := resolveLoc tp.2
  let loc := mat4ApplyPoint (mat4Mul locM (get_without_translation boneM)) rawLoc
  ⟨pyint ((tp.1 : ℚ) - actionStart), rot, loc⟩

/-- The keys of one layer, in the ordering dict's emission order. -/
def layerKeys (flip : Bool) (rotM locM boneM : Mat4) (actionStart : ℚ)
    (ord : List (ℤ × Props)) : List Key :=
  ord.map (makeKey flip rotM locM boneM actionStart)

/-- One bone of the armature: name, optional parent name, head and tail in
armature-local space, and the bone's local rest matrix. -/
structure Bone where
  name : String
  parent : Option String
  head_local : Vec3
  tail_local : Vec3
  matrix_local : Mat4
deriving DecidableEq

/-- One group of an action (action.groups entry): the driven bone's name
and the group's channels. -/
structure ActionGroup where
  name : String
  channels : List FCurve
deriving DecidableEq

/-- One action (bpy.data.actions entry): name, frame range, groups. -/
structure BAction where
  name : String
  frame_start : ℚ
  frame_end : ℚ
  groups : List ActionGroup
deriving DecidableEq


/-- An attribute value as stored in an ElementTree attrib dict.  Every
attribute the source writes is a string, except the default texture
coordinates, which are assigned as raw Python floats — the .float
constructor records exactly that. -/
inductive AttrVal where
  | str : String → AttrVal
  | float : ℚ → AttrVal
deriving DecidableEq

/-- An ElementTree element: tag, insertion-ordered attrib dict, children. -/
inductive Element where
  | mk : String → List (String × AttrVal) → List Element → Element

/-- The tag of an element. -/
def Element.tag : Element → String
  | Element.mk t _ _ => t

/-- The attributes of an element, in insertion order. -/
def Element.attrib : Element → List (String × AttrVal)
  | Element.mk _ a _ => a

/-- The children of an element, in append order. -/
def Element.children : Element → List Element
  | Element.mk _ _ c => c

/-- First-match lookup in an attrib dict. -/
def lookupAttr (el : Element) (key : String) : Option AttrVal :=
  go el.attrib
where
  go : List (String × AttrVal) → Option AttrVal
    | [] => none
    | (k, v) :: rest => if k = key then some v else go rest

/-- Python str(bool).lower(). -/
def boolLower (b : Bool) : String :=
  if b then "true" else "false"

/-- One mesh vertex: stable index, undeformed position, normal, and the
indices of the vertex groups the vertex belongs to (vertex.groups). -/
structure MVertex where
  index : ℕ
  undeformed_co : Vec3
  normal : Vec3
  groups : List ℕ
deriving DecidableEq

/-- One mesh polygon: stable index, ordered vertex indices, smoothing
flag, material slot index and per-corner loop indices. -/
structure Face where
  index : ℕ
  vertices : List ℕ
  use_smooth : Bool
  material_index : ℕ
  loop_indices : List ℕ
deriving DecidableEq

/-- One vertex group of the mesh object: slot index and name. -/
structure ObjectGroup where
  index : ℕ
  name : String
deriving DecidableEq

/-- Exporter._vertex_to_xml: position through transform_vertex, normal
through transform_rotation, four-digit scientific rendering. -/
def vertex_to_xml (v : MVertex) : Element :=
  let pos := mat4ApplyPoint transform_vertex v.undeformed_co
  let norm := mat4ApplyPoint transform_rotation v.normal
  Element.mk "vertex" [("id", AttrVal.str (toString v.index))]
    [Element.mk "pos"
      [("x", AttrVal.str (format_float pos.1)),
       ("y", AttrVal.str (format_float pos.2.1)),
       ("z", AttrVal.str (format_float pos.2.2))] [],
     Element.mk "norm"
      [("x", AttrVal.str (format_float norm.1)),
       ("y", AttrVal.str (format_float norm.2.1)),
       ("z", AttrVal.str (format_float norm.2.2))] []]

/-- One corner tag of a face.  With an active UV layer the texture
coordinates go through format_float; without one the source assigns the
raw Python float 0.0 as the attribute value (no formatting), recorded
here as AttrVal.float 0.  List indexing out of range cannot occur for
well-formed input and is modelled with a default. -/
def faceCorner (face : Face) (uv_active : Option (List (ℚ × ℚ))) (i : ℕ) : Element :=
  Element.mk "corner"
    (("vertex_id", AttrVal.str (toString (face.vertices.getD i 0))) ::
      (match uv_active with
       | some data =>
         let uv := data.getD (face.loop_indices.getD i 0) (0, 0)
         [("tex_u", AttrVal.str (format_float uv.1)),
          ("tex_v", AttrVal.str (format_float uv.2))]
       | none =>
         [("tex_u", AttrVal.float 0), ("tex_v", AttrVal.float 0)]))
    []

/-- Exporter._face_to_xml.  Only 3- and 4-vertex faces are supported,
checked first (the ValueError).  The source then builds vertex_order =
range(len(face.vertices)) and, when flip_face is set, calls
vertex_order.reverse(); a Python 3 range object has no reverse method,
so that call raises AttributeError before any corner is built — the
flip branch is a crash, embedded as an error value (under the program's
fixed transform that branch is never reached, see the C10 theorem).
Otherwise the corners are emitted in source vertex order. -/
def face_to_xml (face : Face) (uv_active : Option (List (ℚ × ℚ))) (flip_face : Bool) :
    Except String Element :=
  let n := face.vertices.length
  if n = 3 ∨ n = 4 then
    if flip_face then
      Except.error "AttributeError: range object has no attribute reverse"
    else
      Except.ok (Element.mk (if n = 3 then "triangle" else "quad")
        [("id", AttrVal.str (toString face.index)),
         ("smooth", AttrVal.str (boolLower face.use_smooth))]
        ((List.range n).map (faceCorner face uv_active)))
  else
    Except.error ("encountered a face with " ++ toString n ++ " vertices")

/-- subset_faces[material_index].append(face), creating the dict entry on
first sight of the material index (dict insertion order). -/
def upsertFaces (subs : List (ℕ × List Face)) (k : ℕ) (f : Face) : List (ℕ × List Face) :=
  match subs with
  | [] => [(k, [f])]
  | (k', fs) :: rest =>
    if k' = k then (k', fs ++ [f]) :: rest
    else (k', fs) :: upsertFaces rest k f

/-- The face loop of Exporter._mesh_to_xml: converts each face in order
(the first unsupported face aborts) and groups faces by material index. -/
def facesLoop (uv_active : Option (List (ℚ × ℚ))) (flip : Bool) :
    List Face → List Element → List (ℕ × List Face) →
    Except String (List Element × List (ℕ × List Face))
  | [], elems, subs => Except.ok (elems, subs)
  | f :: rest, elems, subs =>
    (face_to_xml f uv_active flip).bind
      (fun el => facesLoop uv_active flip rest (elems ++ [el]) (upsertFaces subs f.material_index f))

/-- One face reference inside a subset (quad checked first, as in the
source's subset loop). -/
def subsetFaceTag (f : Face) : Except String Element :=
  if f.vertices.length = 4 then
    Except.ok (Element.mk "quad" [("id", AttrVal.str (toString f.index))] [])
  else if f.vertices.length = 3 then
    Except.ok (Element.mk "triangle" [("id", AttrVal.str (toString f.index))] [])
  else
    Except.error ("encountered a face with " ++ toString f.vertices.length ++ " vertices")

/-- Error-propagating map, the shape of every converting loop. -/
def exceptMap {α β : Type} (g : α → Except String β) : List α → Except String (List β)
  | [] => Except.ok []
  | a :: rest =>
    (g a).bind (fun b => (exceptMap g rest).bind (fun bs => Except.ok (b :: bs)))

/-- Exporter._subset_to_xml: subset id is the material name if the index
resolves to a material, else the stringified index. -/
def subset_to_xml (material : Option String) (faces : List Face) (subset_index : ℕ) :
    Except String Element :=
  let id_ := match material with
    | some nm => nm
    | none => toString subset_index
  match exceptMap subsetFaceTag faces with
  | Except.error e => Except.error e
  | Except.ok tags =>
    Except.ok (Element.mk "subset" [("id", AttrVal.str id_)] [Element.mk "faces" [] tags])

/-- The subsets loop of Exporter._mesh_to_xml, over the material-keyed
dict in insertion order. -/
def subsetsLoop (materials : List String) :
    List (ℕ × List Face) → Except String (List Element)
  | [] => Except.ok []
  | (k, fs) :: rest =>
    let mat := if h : k < materials.length then some materials[k] else none
    (subset_to_xml mat fs k).bind
      (fun el => (subsetsLoop materials rest).bind (fun els => Except.ok (el :: els)))

/-- The mesh snapshot handed to the exporter. -/
structure MeshData where
  vertices : List MVertex
  polygons : List Face
  materials : List String
  uv_active : Option (List (ℚ × ℚ))
  vertex_groups : List ObjectGroup
deriving DecidableEq

/-- Exporter._mesh_to_xml: vertices, faces (aborting on unsupported
topology before anything is written), and subsets when any exist. -/
def mesh_to_xml (mesh : MeshData) : Except String Element :=
  let vertices_tag := Element.mk "vertices" [] (mesh.vertices.map vertex_to_xml)
  let flip_faces := flips_chirality transform_rotation
  match facesLoop mesh.uv_active flip_faces mesh.polygons [] [] with
  | Except.error e => Except.error e
  | Except.ok (faceTags, subset_faces) =>
    let faces_tag := Element.mk "faces" [] faceTags
    if subset_faces.length > 0 then
      match subsetsLoop mesh.materials subset_faces with
      | Except.error e => Except.error e
      | Except.ok subsetTags =>
        Except.ok (Element.mk "mesh" []
          [vertices_tag, faces_tag, Element.mk "subsets" [] subsetTags])
    else
      Except.ok (Element.mk "mesh" [] [vertices_tag, faces_tag])

/-- vertices_by_group[name].append(vertex index), creating the entry on
first sight of the name (dict insertion order). -/
def upsertAppend (m : List (String × List ℕ)) (name : String) (i : ℕ) :
    List (String × List ℕ) :=
  match m with
  | [] => [(name, [i])]
  | (n, l) :: rest =>
    if n = name then (n, l ++ [i]) :: rest
    else (n, l) :: upsertAppend rest name i

/-- The vertices-by-group mapping of Exporter._armature_to_xml: for every
vertex, for every object vertex group, for every group reference of the
vertex, a matching slot index records the vertex under the group's name. -/
def vertices_by_group (vertices : List MVertex) (object_groups : List ObjectGroup) :
    List (String × List ℕ) :=
  vertices.foldl
    (fun acc v =>
      object_groups.foldl
        (fun acc2 og =>
          v.groups.foldl
            (fun acc3 g => if og.index = g then upsertAppend acc3 og.name v.index else acc3)
            acc2)
        acc)
    []

/-- First-match lookup of a group name (Python `name in dict` / dict
access combined). -/
def lookupGroup (m : List (String × List ℕ)) (name : String) : Option (List ℕ) :=
  match m with
  | [] => none
  | (n, l) :: rest => if n = name then some l else lookupGroup rest name

/-- The per-bone tag of Exporter._armature_to_xml: head and tail through
transform_vertex * armature_to_mesh, constant weight 1.0, parent_id when a
parent exists, and the bone's vertex list when its name is a key of the
vertices-by-group mapping. -/
def bone_to_xml (vbg : List (String × List ℕ)) (armature_to_mesh : Mat4) (bone : Bone) :
    Element :=
  let headpos := mat4ApplyPoint (mat4Mul transform_vertex armature_to_mesh) bone.head_local
  let tailpos := mat4ApplyPoint (mat4Mul transform_vertex armature_to_mesh) bone.tail_local
  let attribs :=
    [("id", AttrVal.str bone.name),
     ("x", AttrVal.str (format_float headpos.1)),
     ("y", AttrVal.str (format_float headpos.2.1)),
     ("z", AttrVal.str (format_float headpos.2.2)),
     ("tail_x", AttrVal.str (format_float tailpos.1)),
     ("tail_y", AttrVal.str (format_float tailpos.2.1)),
     ("tail_z", AttrVal.str (format_float tailpos.2.2)),
     ("weight", AttrVal.str (format_float 1))] ++
    (match bone.parent with
     | some p => [("parent_id", AttrVal.str p)]
     | none => [])
  let children :=
    match lookupGroup vbg bone.name with
    | some ids =>
      [Element.mk "vertices" []
        (ids.map (fun i => Element.mk "vertex" [("id", AttrVal.str (toString i))] []))]
    | none => []
  Element.mk "bone" attribs children

/-- First bone with the given name (bpy collection access by name). -/
def boneNamed (bones : List Bone) (name : String) : Option Bone :=
  match bones with
  | [] => none
  | b :: rest => if b.name = name then some b else boneNamed rest name

/-- The group loop of Exporter._armature_animations_to_xml for one action:
a group whose name is no bone is skipped; a matching group always
contributes a layer (appended before any key is built), whose keys come
from the merged ordering of the group's channels. -/
def actionLayersAux (bones : List Bone) (flip : Bool) (rotM locM : Mat4) (actionStart : ℚ) :
    List ActionGroup → Except String (List (String × List Key))
  | [] => Except.ok []
  | g :: rest =>
    match boneNamed bones g.name with
    | none => actionLayersAux bones flip rotM locM actionStart rest
    | some bone =>
      (collectOrdering g.channels).bind
        (fun ord => (actionLayersAux bones flip rotM locM actionStart rest).bind
          (fun layers =>
            Except.ok ((g.name, layerKeys flip rotM locM bone.matrix_local actionStart ord) :: layers)))

/-- One key tag, attributes in the source's insertion order. -/
def key_to_xml (k : Key) : Element :=
  Element.mk "key"
    [("frame", AttrVal.str (toString k.frame)),
     ("rot_x", AttrVal.str (format_float k.rot.1)),
     ("rot_y", AttrVal.str (format_float k.rot.2.1)),
     ("rot_z", AttrVal.str (format_float k.rot.2.2.1)),
     ("rot_w", AttrVal.str (format_float k.rot.2.2.2)),
     ("x", AttrVal.str (format_float k.loc.1)),
     ("y", AttrVal.str (format_float k.loc.2.1)),
     ("z", AttrVal.str (format_float k.loc.2.2))] []

/-- One layer tag. -/
def layer_to_xml (l : String × List Key) : Element :=
  Element.mk "layer" [("bone_id", AttrVal.str l.1)] (l.2.map key_to_xml)

/-- The action loop of Exporter._armature_animations_to_xml: an action is
emitted exactly when its group loop produced at least one layer tag; the
length attribute is int(action_end - action_start). -/
def animationsLoop (bones : List Bone) (flip : Bool) (rotM locM : Mat4) :
    List BAction → Except String (List Element)
  | [] => Except.ok []
  | a :: rest =>
    (actionLayersAux bones flip rotM locM a.frame_start a.groups).bind
      (fun layers => (animationsLoop bones flip rotM locM rest).bind
        (fun tags =>
          if layers.length > 0 then
            Except.ok (Element.mk "animation"
              [("id", AttrVal.str a.name),
               ("length", AttrVal.str (toString (pyint (a.frame_end - a.frame_start))))]
              (layers.map layer_to_xml) :: tags)
          else
            Except.ok tags))

/-- Exporter._armature_animations_to_xml. -/
def armature_animations_to_xml (bones : List Bone) (actions : List BAction)
    (armature_to_mesh : Mat4) : Except String Element :=
  let rotM := mat4Mul transform_rotation (get_rotation armature_to_mesh)
  let locM := mat4Mul transform_displacement armature_to_mesh
  let flip := flips_chirality transform_rotation
  match animationsLoop bones flip rotM locM actions with
  | Except.error e => Except.error e
  | Except.ok tags => Except.ok (Element.mk "animations" [] tags)

/-- The armature snapshot: bones, the armature-to-mesh matrix (composed in
the source from the two objects' world matrices), and the actions of the
scene (bpy.data.actions). -/
structure ArmData where
  bones : List Bone
  armature_to_mesh : Mat4
  actions : List BAction
deriving DecidableEq

/-- Exporter._armature_to_xml. -/
def armature_to_xml (arm : ArmData) (mesh : MeshData) : Except String Element :=
  let vbg := vertices_by_group mesh.vertices mesh.vertex_groups
  let bones_tag := Element.mk "bones" [] (arm.bones.map (bone_to_xml vbg arm.armature_to_mesh))
  match armature_animations_to_xml arm.bones arm.actions arm.armature_to_mesh with
  | Except.error e => Except.error e
  | Except.ok anims => Except.ok (Element.mk "armature" [] [bones_tag, anims])

/-- Exporter._to_xml, the document built before anything is written to the
destination: an error value means the export aborted and no document (not
even a partial one) was produced. -/
def to_xml (mesh : MeshData) (arm : Option ArmData) : Except String Element :=
  match mesh_to_xml mesh with
  | Except.error e => Except.error e
  | Except.ok mesh_tag =>
    match arm with
    | none => Except.ok mesh_tag
    | some a =>
      match armature_to_xml a mesh with
      | Except.error e => Except.error e
      | Except.ok arm_tag =>
        match mesh_tag with
        | Element.mk t ats ch => Except.ok (Element.mk t ats (ch ++ [arm_tag]))


/-- The bone-local data path used by the worked animation examples. -/
def exLocPath : String := "pose.bones[\"Body\"].location"

/-- The rotation path used by the worked animation examples. -/
def exRotPath : String := "pose.bones[\"Body\"].rotation_quaternion"

/-- Channel set of the worked merge example: location x/y/z sampled at
times 0 and 10 only, rotation w/x/y/z sampled at times 0 and 5 only
(integer-valued sample data). -/
def exChannels : List FCurve :=
  [⟨exLocPath, 0, [(0, 11), (10, 12)]⟩,
   ⟨exLocPath, 1, [(0, 21), (10, 22)]⟩,
   ⟨exLocPath, 2, [(0, 31), (10, 32)]⟩,
   ⟨exRotPath, 0, [(0, 9), (5, 8)]⟩,
   ⟨exRotPath, 1, [(0, 1), (5, 2)]⟩,
   ⟨exRotPath, 2, [(0, 3), (5, 4)]⟩,
   ⟨exRotPath, 3, [(0, 5), (5, 6)]⟩]

/-- The ordering dict the worked example produces: buckets appear in
first-insertion order 0, 10, 5. -/
def exOrd : List (ℤ × Props) :=
  [(0, ⟨some 9, some 1, some 3, some 5, some 11, some 21, some 31, none⟩),
   (10, ⟨none, none, none, none, some 12, some 22, some 32, none⟩),
   (5, ⟨some 8, some 2, some 4, some 6, none, none, none, none⟩)]

/-- A one-bone armature for the zero-key-layer example. -/
def exBoneA : Bone := ⟨"A", none, (0, 0, 0), (0, 1, 0), mat4Id⟩

/-- An action whose only group matches bone "A" but carries a single
location channel with no keyframe samples at all. -/
def exEmptyAction : BAction :=
  ⟨"Act", 0, 10, [⟨"A", [⟨exLocPath, 0, []⟩]⟩]⟩


deriving instance DecidableEq for Except

/-- The observable failure of an export run: the raised message, or none
when a document was produced. -/
def exceptErr {α : Type} (e : Except String α) : Option String :=
  match e with
  | Except.error s => some s
  | Except.ok _ => none

/-- The key set evolution of one dict write: an existing time keeps the
key list, a fresh time is appended. -/
def insKey (ks : List ℤ) (t : ℤ) : List ℤ :=
  if t ∈ ks then ks else ks ++ [t]

/-- The truncated times of one fcurve's samples, in sample order. -/
def sampleTimes (kfs : List Sample) : List ℤ :=
  kfs.map (fun kf => pyint kf.1)

/-- The truncated times of all samples of all channels, in traversal
order (channels in list order, samples in curve order). -/
def allTimes : List FCurve → List ℤ
  | [] => []
  | fc :: rest => sampleTimes fc.keyframe_points ++ allTimes rest

/-- Whether some group of the action names an existing bone — the exact
condition under which the source emits the action. -/
def hasMatchingGroup (bones : List Bone) (a : BAction) : Bool :=
  a.groups.any (fun g => (boneNamed bones g.name).isSome)

/-- The (group name, vertex index) writes one vertex contributes to the
vertices-by-group dict, in loop order. -/
def pairsOfVertex : List ObjectGroup → MVertex → List (String × ℕ)
  | [], _ => []
  | og :: rest, v =>
    v.groups.filterMap (fun g => if og.index = g then some (og.name, v.index) else none)
      ++ pairsOfVertex rest v

/-- All (group name, vertex index) writes of the vertices-by-group loop,
in loop order. -/
def vbgPairs : List MVertex → List ObjectGroup → List (String × ℕ)
  | [], _ => []
  | v :: rest, ogs => pairsOfVertex ogs v ++ vbgPairs rest ogs

/-- A triangle with vertex ids 4, 5, 6 used by the worked face examples. -/
def exFace : Face :=
  ⟨0, [4, 5, 6], false, 0, [0, 1, 2]⟩

/-- A mesh whose only polygon (id 7) has five vertices. -/
def exBadMesh : MeshData :=
  ⟨[], [⟨7, [0, 1, 2, 3, 4], false, 0, [0, 1, 2, 3, 4]⟩], [], none, []⟩

/-- A vertex (id 7) that is a member of vertex group slot 0. -/
def exSpineVertex : MVertex :=
  ⟨7, (0, 0, 0), (0, 0, 0), [0]⟩

/-- A bone named "Spine". -/
def exSpineBone : Bone :=
  ⟨"Spine", none, (0, 0, 0), (0, 1, 0), mat4Id⟩

/-- The exact rational 12.345 (2469 / 200), built without normalization so
that closed formatting instances reduce inside the kernel. -/
def q12_345 : ℚ :=
  Rat.mk' 2469 200 (by norm_num) (by norm_num)

/-- The animations element the source produces for exBoneA and
exEmptyAction: the action is emitted with one empty layer. -/
def exAnimElement : Element :=
  Element.mk "animations" []
    [Element.mk "animation" [("id", AttrVal.str "Act"), ("length", AttrVal.str "10")]
      [Element.mk "layer" [("bone_id", AttrVal.str "A")] []]]

/-- Whether an integer list is in ascending order. -/
def ascendingBool : List ℤ → Bool
  | [] => true
  | [_] => true
  | a :: b :: rest => decide (a ≤ b) && ascendingBool (b :: rest)

/-- The observable shape of an unsupported-topology failure: the export
aborted with the face-count message for some unsupported count, and no
document was produced. -/
def isTopologyError (e : Except String Element) : Prop :=
  ∃ n : ℕ, n ≠ 3 ∧ n ≠ 4 ∧
    e = Except.error ("encountered a face with " ++ toString n ++ " vertices")

/-- A rendered float whose mantissa head is a nonzero decimal digit —
the normalization of scientific notation. -/
def normalizedHead (s : String) : Prop :=
  ∃ k : ℕ, 1 ≤ k ∧ k ≤ 9 ∧ mantissaHead s = some (Nat.digitChar k)

-- ### Helper lemmas

theorem except_ok_bind {α β : Type} (a : α) (f : α → Except String β) :
    (Except.ok a : Except String α).bind f = f a := rfl

theorem except_error_bind {α β : Type} (e : String) (f : α → Except String β) :
    (Except.error e : Except String α).bind f = Except.error e := rfl

theorem mat4Mul_id_left (m : Mat4) : mat4Mul mat4Id m = m := by
  cases m; simp [mat4Mul, mat4Id]

theorem mat4ApplyVec4_id (v : Vec4) : mat4ApplyVec4 mat4Id v = v := by
  obtain ⟨a, b, c, d⟩ := v
  simp [mat4ApplyVec4, mat4Id]

theorem mat4ApplyPoint_id (v : Vec3) : mat4ApplyPoint mat4Id v = v := by
  obtain ⟨a, b, c⟩ := v
  simp [mat4ApplyPoint, mat4Id]

theorem get_rotation_id : get_rotation mat4Id = mat4Id := rfl

theorem get_without_translation_id : get_without_translation mat4Id = mat4Id := rfl

theorem pyint_intCast (n : ℤ) : pyint (n : ℚ) = n := by
  simp [pyint, Rat.num_intCast, Rat.den_intCast, Int.tdiv_one]

theorem makeKey_id (s : ℚ) (tp : ℤ × Props) :
    makeKey false mat4Id mat4Id mat4Id s tp =
      ⟨pyint ((tp.1 : ℚ) - s), resolveRot tp.2, resolveLoc tp.2⟩ := by
  simp [makeKey, mat4Mul_id_left, get_rotation_id, get_without_translation_id,
    mat4ApplyVec4_id, mat4ApplyPoint_id]

theorem bucketKeys_bucketInsert (ord : List (ℤ × Props)) (t : ℤ)
    (ty : Option CurvePropertyType) (v : ℚ) :
    bucketKeys (bucketInsert ord t ty v) = insKey (bucketKeys ord) t := by
  induction ord with
  | nil => simp [bucketInsert, bucketKeys, insKey]
  | cons hd tl ih =>
    obtain ⟨t', p⟩ := hd
    by_cases h : t' = t
    · subst h
      simp [bucketInsert, bucketKeys, insKey]
    · simp only [bucketInsert, if_neg h, bucketKeys, List.map_cons] at ih ⊢
      rw [ih]
      simp only [insKey, List.mem_cons]
      by_cases hm : t ∈ List.map Prod.fst tl
      · simp [hm, Ne.symm h]
      · simp [hm, Ne.symm h]

theorem mem_insKey (ks : List ℤ) (t t0 : ℤ) :
    t0 ∈ insKey ks t ↔ t0 ∈ ks ∨ t0 = t := by
  unfold insKey
  by_cases h : t ∈ ks
  · simp only [if_pos h]
    constructor
    · exact fun hh => Or.inl hh
    · rintro (hh | rfl)
      · exact hh
      · exact h
  · simp [if_neg h]

theorem nodup_insKey (ks : List ℤ) (t : ℤ) (h : ks.Nodup) : (insKey ks t).Nodup := by
  unfold insKey
  by_cases hm : t ∈ ks
  · simpa [hm] using h
  · simp only [if_neg hm]
    simpa [List.nodup_append, h] using hm

theorem bucketKeys_applyCurveSamples (ty : Option CurvePropertyType) (kfs : List Sample)
    (ord : List (ℤ × Props)) :
    bucketKeys (applyCurveSamples ty kfs ord) = (sampleTimes kfs).foldl insKey (bucketKeys ord) := by
  induction kfs generalizing ord with
  | nil => simp [applyCurveSamples, sampleTimes]
  | cons kf rest ih =>
    simp only [applyCurveSamples, List.foldl_cons, sampleTimes, List.map_cons] at ih ⊢
    rw [← bucketKeys_bucketInsert ord (pyint kf.1) ty kf.2]
    exact ih (bucketInsert ord (pyint kf.1) ty kf.2)

theorem bucketKeys_collectOrderingAux (channels : List FCurve) :
    ∀ (ord0 ord : List (ℤ × Props)),
      collectOrderingAux channels ord0 = Except.ok ord →
      bucketKeys ord = (allTimes channels).foldl insKey (bucketKeys ord0) := by
  induction channels with
  | nil =>
    intro ord0 ord h
    simp only [collectOrderingAux, Except.ok.injEq] at h
    subst h
    simp [allTimes]
  | cons fc rest ih =>
    intro ord0 ord h
    simp only [collectOrderingAux] at h
    cases hty : get_curve_property_type fc.data_path fc.array_index with
    | error e => rw [hty] at h; exact absurd h (by simp [Except.bind])
    | ok ty =>
      rw [hty] at h
      simp only [Except.bind] at h
      have := ih (applyCurveSamples ty fc.keyframe_points ord0) ord h
      rw [this, bucketKeys_applyCurveSamples, allTimes, List.foldl_append]

theorem mem_foldl_insKey (ts : List ℤ) :
    ∀ (ks : List ℤ) (t : ℤ), t ∈ ts.foldl insKey ks ↔ t ∈ ks ∨ t ∈ ts := by
  induction ts with
  | nil => simp
  | cons t' rest ih =>
    intro ks t
    simp only [List.foldl_cons, ih, mem_insKey, List.mem_cons]
    tauto

theorem nodup_foldl_insKey (ts : List ℤ) :
    ∀ (ks : List ℤ), ks.Nodup → (ts.foldl insKey ks).Nodup := by
  induction ts with
  | nil => intro ks h; simpa using h
  | cons t' rest ih =>
    intro ks h
    exact ih (insKey ks t') (nodup_insKey ks t' h)

theorem mem_allTimes (channels : List FCurve) (t : ℤ) :
    t ∈ allTimes channels ↔
      ∃ fc ∈ channels, ∃ kf ∈ fc.keyframe_points, pyint kf.1 = t := by
  induction channels with
  | nil => simp [allTimes]
  | cons fc rest ih =>
    simp only [allTimes, List.mem_append, ih, sampleTimes, List.mem_map, List.mem_cons]
    constructor
    · rintro (⟨kf, hkf, rfl⟩ | ⟨fc', hfc', hkf⟩)
      · exact ⟨fc, Or.inl rfl, kf, hkf, rfl⟩
      · exact ⟨fc', Or.inr hfc', hkf⟩
    · rintro ⟨fc', hfc' | hfc', hkf⟩
      · subst hfc'
        obtain ⟨kf, hkf, rfl⟩ := hkf
        exact Or.inl ⟨kf, hkf, rfl⟩
      · exact Or.inr ⟨fc', hfc', hkf⟩

theorem resolveRot_cases (p : Props) :
    ((p.rot_w.isSome && p.rot_x.isSome && p.rot_y.isSome && p.rot_z.isSome) = false →
      resolveRot p = (0, 0, 0, 1)) ∧
    (∀ w x y z : ℚ, p.rot_w = some w → p.rot_x = some x → p.rot_y = some y → p.rot_z = some z →
      resolveRot p = (x, y, z, w)) := by
  obtain ⟨w, x, y, z, lx, ly, lz, o⟩ := p
  cases w <;> cases x <;> cases y <;> cases z <;>
    simp [resolveRot, extract_rot]
  rintro w x y z rfl rfl rfl rfl
  exact ⟨rfl, rfl, rfl, rfl⟩

theorem resolveLoc_cases (p : Props) :
    ((p.loc_x.isSome && p.loc_y.isSome && p.loc_z.isSome) = false →
      resolveLoc p = (0, 0, 0)) ∧
    (∀ x y z : ℚ, p.loc_x = some x → p.loc_y = some y → p.loc_z = some z →
      resolveLoc p = (x, y, z)) := by
  obtain ⟨w, x, y, z, lx, ly, lz, o⟩ := p
  cases lx <;> cases ly <;> cases lz <;>
    simp [resolveLoc, extract_loc]

/-- Claim C1: for every (action, bone) pair, the samples of all of the
bone's channels are bucketed by truncated integer time into partial
records — the bucket times are exactly the distinct truncated sample
times — and (with the surrounding transforms at the identity so the raw
values are visible) each bucket emits exactly one key whose rotation is
the bucketed (x, y, z, w) quaternion when all four rotation components
are present and the identity quaternion (0, 0, 0, 1) otherwise, and
whose translation is the bucketed vector when all three location
components are present and (0, 0, 0) otherwise.  In particular, channels
carrying only .location samples at times 0 and 10 and only
.rotation_quaternion samples at times 0 and 5 merge into exactly three
keys at frames 0, 5 and 10, frame 5 getting the default location and
frame 10 the default rotation. -/
theorem claim_C1 :
    (∀ (channels : List FCurve) (ord : List (ℤ × Props)),
      collectOrdering channels = Except.ok ord →
      ((∀ t : ℤ, t ∈ bucketKeys ord ↔
          ∃ fc ∈ channels, ∃ kf ∈ fc.keyframe_points, pyint kf.1 = t) ∧
        (bucketKeys ord).Nodup ∧
        ∀ s : ℚ, layerKeys false mat4Id mat4Id mat4Id s ord =
          ord.map (fun tp => ⟨pyint ((tp.1 : ℚ) - s), resolveRot tp.2, resolveLoc tp.2⟩))) ∧
    (∀ p : Props,
      ((p.rot_w.isSome && p.rot_x.isSome && p.rot_y.isSome && p.rot_z.isSome) = false →
        resolveRot p = (0, 0, 0, 1)) ∧
      (∀ w x y z : ℚ, p.rot_w = some w → p.rot_x = some x → p.rot_y = some y →
        p.rot_z = some z → resolveRot p = (x, y, z, w)) ∧
      ((p.loc_x.isSome && p.loc_y.isSome && p.loc_z.isSome) = false →
        resolveLoc p = (0, 0, 0)) ∧
      (∀ x y z : ℚ, p.loc_x = some x → p.loc_y = some y → p.loc_z = some z →
        resolveLoc p = (x, y, z))) ∧
    (collectOrdering exChannels = Except.ok exOrd ∧
      (∀ t : ℤ, t ∈ bucketKeys exOrd ↔ t = 0 ∨ t = 5 ∨ t = 10) ∧
      (bucketKeys exOrd).Nodup ∧
      layerKeys false mat4Id mat4Id mat4Id 0 exOrd =
        [⟨0, (1, 3, 5, 9), (11, 21, 31)⟩,
         ⟨10, (0, 0, 0, 1), (12, 22, 32)⟩,
         ⟨5, (2, 4, 6, 8), (0, 0, 0)⟩]) := by
  refine ⟨?_, ?_, ?_, ?_, ?_, ?_⟩
  · intro channels ord h
    have hkeys := bucketKeys_collectOrderingAux channels [] ord h
    refine ⟨?_, ?_, ?_⟩
    · intro t
      rw [hkeys]
      simpa [bucketKeys, mem_foldl_insKey] using mem_allTimes channels t
    · rw [hkeys]
      exact nodup_foldl_insKey _ _ (by simp [bucketKeys])
    · intro s
      simp [layerKeys, makeKey_id]
  · intro p
    exact ⟨(resolveRot_cases p).1, (resolveRot_cases p).2,
      (resolveLoc_cases p).1, (resolveLoc_cases p).2⟩
  · decide
  · intro t
    simp only [bucketKeys, exOrd, List.map_cons, List.map_nil, List.mem_cons,
      List.not_mem_nil, or_false]
    tauto
  · decide
  · simp only [layerKeys, List.map_cons, List.map_nil, makeKey_id, exOrd, sub_zero,
      pyint_intCast]
    decide

/-- Witness for claim C1: the bucket times of the worked example are
distinct, obtained by applying the claim at a concrete channel list. -/
theorem claim_C1_witness : (bucketKeys exOrd).Nodup :=
  (claim_C1.1 exChannels exOrd (by decide)).2.1

/-- Amended claim C2: within a layer, keys are emitted in the bucket
dict's insertion order — the order of first occurrence of each truncated
time across the bone's channels in traversal order — one key per bucket;
ascending time order is not guaranteed. -/
theorem claim_C2 :
    ∀ (channels : List FCurve) (ord : List (ℤ × Props)),
      collectOrdering channels = Except.ok ord →
      bucketKeys ord = (allTimes channels).foldl insKey [] ∧
      ∀ (flip : Bool) (rotM locM boneM : Mat4) (s : ℚ),
        (layerKeys flip rotM locM boneM s ord).map Key.frame =
          (bucketKeys ord).map (fun t : ℤ => pyint ((t : ℚ) - s)) := by
  intro channels ord h
  constructor
  · simpa [bucketKeys] using bucketKeys_collectOrderingAux channels [] ord h
  · intro flip rotM locM boneM s
    simp only [layerKeys, bucketKeys, List.map_map]
    rfl

/-- Counterexample to claim C2 as stated: with the location channels
(samples at times 0 and 10) listed before the rotation channels (samples
at times 0 and 5), the emitted key frames are 0, 10, 5 — bucket-structure
traversal order, not ascending time order. -/
theorem claim_C2_counterexample :
    collectOrdering exChannels = Except.ok exOrd ∧
    (layerKeys false mat4Id mat4Id mat4Id 0 exOrd).map Key.frame = [0, 10, 5] ∧
    ascendingBool [0, 10, 5] = false := by
  refine ⟨by decide, ?_, by decide⟩
  simp only [layerKeys, List.map_cons, List.map_nil, makeKey_id, exOrd, sub_zero,
    pyint_intCast]

/-- Witness for claim C2: the worked example's bucket times equal the
fold of the first-seen-order insertions, by applying the claim at a
concrete channel list. -/
theorem claim_C2_witness : bucketKeys exOrd = (allTimes exChannels).foldl insKey [] :=
  (claim_C2 exChannels exOrd (by decide)).1

theorem boneNamed_isSome (bones : List Bone) (n : String) :
    (boneNamed bones n).isSome = bones.any (fun b => b.name == n) := by
  induction bones with
  | nil => simp [boneNamed]
  | cons b rest ih =>
    by_cases h : b.name = n
    · simp [boneNamed, h]
    · simp [boneNamed, h, ih]

theorem actionLayersAux_names (bones : List Bone) (flip : Bool) (rotM locM : Mat4) (s : ℚ) :
    ∀ (groups : List ActionGroup) (layers : List (String × List Key)),
      actionLayersAux bones flip rotM locM s groups = Except.ok layers →
      layers.map Prod.fst =
        (groups.filter (fun g => (boneNamed bones g.name).isSome)).map ActionGroup.name := by
  intro groups
  induction groups with
  | nil =>
    intro layers h
    simp only [actionLayersAux, Except.ok.injEq] at h
    subst h
    simp
  | cons g rest ih =>
    intro layers h
    rw [actionLayersAux] at h
    cases hb : boneNamed bones g.name with
    | none =>
      rw [hb] at h
      have := ih layers h
      simpa [List.filter_cons, hb] using this
    | some bone =>
      rw [hb] at h
      cases hord : collectOrdering g.channels with
      | error e => rw [hord] at h; exact absurd h (by simp [Except.bind])
      | ok ord =>
        rw [hord] at h
        simp only [Except.bind] at h
        cases hrest : actionLayersAux bones flip rotM locM s rest with
        | error e => rw [hrest] at h; exact absurd h (by simp)
        | ok layers' =>
          rw [hrest] at h
          simp only [Except.ok.injEq] at h
          subst h
          have := ih layers' hrest
          simp [List.filter_cons, hb, this]

theorem animationsLoop_ids (bones : List Bone) (flip : Bool) (rotM locM : Mat4) :
    ∀ (actions : List BAction) (tags : List Element),
      animationsLoop bones flip rotM locM actions = Except.ok tags →
      tags.map (fun el => lookupAttr el "id") =
        (actions.filter (hasMatchingGroup bones)).map (fun a => some (AttrVal.str a.name)) := by
  intro actions
  induction actions with
  | nil =>
    intro tags h
    simp only [animationsLoop, Except.ok.injEq] at h
    subst h
    simp
  | cons a rest ih =>
    intro tags h
    rw [animationsLoop] at h
    cases hl : actionLayersAux bones flip rotM locM a.frame_start a.groups with
    | error e => rw [hl, except_error_bind] at h; exact absurd h (by simp)
    | ok layers =>
      rw [hl, except_ok_bind] at h
      cases hr : animationsLoop bones flip rotM locM rest with
      | error e => rw [hr, except_error_bind] at h; exact absurd h (by simp)
      | ok tags' =>
        rw [hr, except_ok_bind] at h
        have hmatch : 0 < layers.length ↔ hasMatchingGroup bones a = true := by
          have hnames := actionLayersAux_names bones flip rotM locM a.frame_start a.groups layers hl
          have hlen : layers.length =
              (a.groups.filter (fun g => (boneNamed bones g.name).isSome)).length := by
            have := congrArg List.length hnames
            simpa using this
          rw [hlen, hasMatchingGroup, List.any_eq_true, List.length_pos, ne_eq,
            List.filter_eq_nil_iff]
          push_neg
          constructor
          · rintro ⟨g, hg, hsome⟩
            exact ⟨g, hg, hsome⟩
          · rintro ⟨g, hg, hsome⟩
            exact ⟨g, hg, hsome⟩
        by_cases hm : hasMatchingGroup bones a
        · rw [if_pos (hmatch.mpr hm)] at h
          simp only [Except.ok.injEq] at h
          subst h
          have := ih tags' hr
          simp only [List.map_cons, this, List.filter_cons, hm, if_true]
          simp [lookupAttr, lookupAttr.go]
        · have hm' : ¬ 0 < layers.length := fun hp => hm (hmatch.mp hp)
          rw [if_neg hm'] at h
          simp only [Except.ok.injEq] at h
          subst h
          have := ih tags' hr
          have hmf : hasMatchingGroup bones a = false := by simpa using hm
          simp [this, List.filter_cons, hmf]

theorem pyint_ofNat (n : ℕ) [n.AtLeastTwo] :
    pyint (OfNat.ofNat n : ℚ) = OfNat.ofNat n := by
  simp [pyint, Rat.num_ofNat, Rat.den_ofNat, Int.tdiv_one]

theorem exAnimElement_spec :
    armature_animations_to_xml [exBoneA] [exEmptyAction] mat4Id = Except.ok exAnimElement := by
  have hc : get_curve_property_type exLocPath 0 = Except.ok (some CurvePropertyType.LOC_X) := by
    decide
  simp only [armature_animations_to_xml, animationsLoop, actionLayersAux, boneNamed,
    exBoneA, exEmptyAction, collectOrdering, collectOrderingAux, hc,
    applyCurveSamples, layerKeys, layer_to_xml, exAnimElement, except_ok_bind,
    sub_zero]
  simp [except_ok_bind, layer_to_xml, makeKey]
  exact congrArg toString (pyint_ofNat 10)

/-- Amended claim C3: a group contributes a layer to an action's output
exactly when its name matches a bone — whether or not any key was
produced (the layer tag is appended before the keys are built) — and an
action is emitted exactly when at least one of its groups matches a
bone; an action with no matching groups is entirely omitted. -/
theorem claim_C3 :
    (∀ (bones : List Bone) (actions : List BAction) (am : Mat4) (el : Element),
      armature_animations_to_xml bones actions am = Except.ok el →
      el.children.map (fun c => lookupAttr c "id") =
        (actions.filter (hasMatchingGroup bones)).map (fun a => some (AttrVal.str a.name))) ∧
    (∀ (bones : List Bone) (flip : Bool) (rotM locM : Mat4) (s : ℚ)
        (groups : List ActionGroup) (layers : List (String × List Key)),
      actionLayersAux bones flip rotM locM s groups = Except.ok layers →
      layers.map Prod.fst =
        (groups.filter (fun g => (boneNamed bones g.name).isSome)).map ActionGroup.name) := by
  constructor
  · intro bones actions am el h
    rw [armature_animations_to_xml] at h
    cases hloop : animationsLoop bones (flips_chirality transform_rotation)
        (mat4Mul transform_rotation (get_rotation am))
        (mat4Mul transform_displacement am) actions with
    | error e => rw [hloop] at h; exact absurd h (by simp)
    | ok tags =>
      rw [hloop] at h
      simp only [Except.ok.injEq] at h
      subst h
      simpa [Element.children] using
        animationsLoop_ids bones (flips_chirality transform_rotation)
          (mat4Mul transform_rotation (get_rotation am))
          (mat4Mul transform_displacement am) actions tags hloop
  · exact fun bones flip rotM locM s groups layers h =>
      actionLayersAux_names bones flip rotM locM s groups layers h

/-- Counterexample to claim C3 as stated: an action whose only group
matches bone "A" but whose single channel has no keyframe samples — so
the bone produces zero keys — is still emitted, carrying one layer with
zero keys (the claim says such an action is entirely omitted). -/
theorem claim_C3_counterexample :
    (armature_animations_to_xml [exBoneA] [exEmptyAction] mat4Id).map
        (fun el => el.children.map
          (fun a => (lookupAttr a "id", a.children.map (fun l => l.children.length))))
      = Except.ok [(some (AttrVal.str "Act"), [0])] := by
  decide

/-- Witness for claim C3: the amended claim applied at the concrete
one-bone, one-action scene. -/
theorem claim_C3_witness :
    exAnimElement.children.map (fun c => lookupAttr c "id") =
      (([exEmptyAction] : List BAction).filter (hasMatchingGroup [exBoneA])).map
        (fun a => some (AttrVal.str a.name)) :=
  claim_C3.1 [exBoneA] [exEmptyAction] mat4Id exAnimElement exAnimElement_spec

theorem except_map_ok {α β : Type} (f : α → β) (a : α) :
    (Except.ok a : Except String α).map f = Except.ok (f a) := rfl

theorem map_getD_range {α : Type} (l : List α) (d : α) :
    (List.range l.length).map (fun i => l.getD i d) = l := by
  induction l with
  | nil => simp
  | cons a t ih =>
    rw [List.length_cons, List.range_succ_eq_map, List.map_cons, List.map_map]
    simp only [List.getD_cons_zero, Function.comp_def, List.getD_cons_succ]
    rw [ih]

theorem face_to_xml_valid (face : Face) (uv : Option (List (ℚ × ℚ)))
    (h : face.vertices.length = 3 ∨ face.vertices.length = 4) :
    face_to_xml face uv false = Except.ok (Element.mk
      (if face.vertices.length = 3 then "triangle" else "quad")
      [("id", AttrVal.str (toString face.index)),
       ("smooth", AttrVal.str (boolLower face.use_smooth))]
      ((List.range face.vertices.length).map (faceCorner face uv))) := by
  simp only [face_to_xml, if_pos h, Bool.false_eq_true, if_false]

theorem face_to_xml_flip (face : Face) (uv : Option (List (ℚ × ℚ)))
    (h : face.vertices.length = 3 ∨ face.vertices.length = 4) :
    face_to_xml face uv true =
      Except.error "AttributeError: range object has no attribute reverse" := by
  simp only [face_to_xml, if_pos h, if_true]

theorem face_to_xml_invalid (face : Face) (uv : Option (List (ℚ × ℚ))) (flip : Bool)
    (h : ¬(face.vertices.length = 3 ∨ face.vertices.length = 4)) :
    face_to_xml face uv flip =
      Except.error ("encountered a face with " ++ toString face.vertices.length ++ " vertices") := by
  simp only [face_to_xml, if_neg h]

theorem lookupAttr_faceCorner (face : Face) (uv : Option (List (ℚ × ℚ))) (i : ℕ) :
    lookupAttr (faceCorner face uv i) "vertex_id" =
      some (AttrVal.str (toString (face.vertices.getD i 0))) := by
  cases uv <;> simp [faceCorner, lookupAttr, lookupAttr.go]

theorem face_corner_ids (face : Face) (uv : Option (List (ℚ × ℚ)))
    (h : face.vertices.length = 3 ∨ face.vertices.length = 4) :
    (face_to_xml face uv false).map
        (fun el => el.children.map (fun c => lookupAttr c "vertex_id")) =
      Except.ok (face.vertices.map (fun vid => some (AttrVal.str (toString vid)))) := by
  rw [face_to_xml_valid face uv h, except_map_ok]
  simp only [Element.children, List.map_map]
  rw [show face.vertices.map (fun vid => some (AttrVal.str (toString vid)))
      = ((List.range face.vertices.length).map (fun i => face.vertices.getD i 0)).map
          (fun vid => some (AttrVal.str (toString vid))) by rw [map_getD_range]]
  rw [List.map_map]
  refine congrArg Except.ok ?_
  simp only [Function.comp_def]
  exact List.map_congr_left (fun i _ => lookupAttr_faceCorner face uv i)

theorem gwt_idem (m : Mat4) :
    get_without_translation (get_without_translation m) = get_without_translation m := by
  cases m; rfl

/-- Claim C4 (code bug): for every emitted face the corner order —
vertex ids and associated texture coordinates — equals the source
vertex order when the chirality flag is false, and the chirality test
itself is true exactly when the matrix determinant is negative; but
when the flag is true the source does not emit the reversed corner
order the claim describes: it calls reverse() on a Python 3 range
object, which raises AttributeError before any corner is built, so the
flag-true branch crashes and emits nothing. -/
theorem claim_C4 :
    (∀ (face : Face) (uv : Option (List (ℚ × ℚ))),
      face.vertices.length = 3 ∨ face.vertices.length = 4 →
      (face_to_xml face uv false).map
          (fun el => el.children.map (fun c => lookupAttr c "vertex_id")) =
        Except.ok (face.vertices.map (fun vid => some (AttrVal.str (toString vid)))) ∧
      face_to_xml face uv true =
        Except.error "AttributeError: range object has no attribute reverse") ∧
    (∀ m : Mat4, flips_chirality m = true ↔ det4 m < 0) := by
  constructor
  · intro face uv h
    exact ⟨face_corner_ids face uv h, face_to_xml_flip face uv h⟩
  · intro m
    simp [flips_chirality]

/-- Witness for claim C4: at a concrete triangle, the flag-false corner
ids equal the source order and the flag-true call is the AttributeError
crash, by applying the claim there. -/
theorem claim_C4_witness :
    (face_to_xml exFace none false).map
        (fun el => el.children.map (fun c => lookupAttr c "vertex_id")) =
      Except.ok [some (AttrVal.str "4"), some (AttrVal.str "5"), some (AttrVal.str "6")] ∧
    face_to_xml exFace none true =
      Except.error "AttributeError: range object has no attribute reverse" :=
  ⟨(claim_C4.1 exFace none (by decide)).1, (claim_C4.1 exFace none (by decide)).2⟩

/-- Claim C10: under the program's fixed configuration the single
axis-change transform is the pure rotation by -90 degrees about X, whose
rotation part has determinant +1, so the chirality test is false on
every export: the corner-reversal branch is never taken (corner order
always equals the source vertex order) and the quaternion-inversion
branch is never taken. -/
theorem claim_C10 :
    det4 transform_rotation = 1 ∧
    flips_chirality transform_rotation = false ∧
    (∀ (face : Face) (uv : Option (List (ℚ × ℚ))),
      face.vertices.length = 3 ∨ face.vertices.length = 4 →
      (face_to_xml face uv (flips_chirality transform_rotation)).map
          (fun el => el.children.map (fun c => lookupAttr c "vertex_id")) =
        Except.ok (face.vertices.map (fun vid => some (AttrVal.str (toString vid))))) ∧
    (∀ (rotM locM boneM : Mat4) (s : ℚ) (tp : ℤ × Props),
      makeKey (flips_chirality transform_rotation) rotM locM boneM s tp =
        ⟨pyint ((tp.1 : ℚ) - s),
         mat4ApplyVec4 (mat4Mul rotM (get_rotation boneM)) (resolveRot tp.2),
         mat4ApplyPoint (mat4Mul locM (get_without_translation boneM)) (resolveLoc tp.2)⟩) := by
  have hdet : det4 transform_rotation = 1 := by
    norm_num [det4, det3, transform_rotation, transform_vertex, get_rotation,
      get_without_translation]
  have hflip : flips_chirality transform_rotation = false := by
    simp [flips_chirality, hdet]
  refine ⟨hdet, hflip, ?_, ?_⟩
  · intro face uv h
    rw [hflip]
    exact face_corner_ids face uv h
  · intro rotM locM boneM s tp
    rw [hflip]
    simp [makeKey]

/-- Witness for claim C10: the corner order of a concrete triangle under
the program's actual chirality flag equals the source order, by applying
the claim at that face. -/
theorem claim_C10_witness :
    (face_to_xml exFace none (flips_chirality transform_rotation)).map
        (fun el => el.children.map (fun c => lookupAttr c "vertex_id")) =
      Except.ok [some (AttrVal.str "4"), some (AttrVal.str "5"), some (AttrVal.str "6")] :=
  claim_C10.2.2.1 exFace none (by decide)

theorem facesLoop_error (uv : Option (List (ℚ × ℚ))) :
    ∀ (fs : List Face) (elems : List Element) (subs : List (ℕ × List Face)),
      (∃ f ∈ fs, f.vertices.length ≠ 3 ∧ f.vertices.length ≠ 4) →
      ∃ n : ℕ, n ≠ 3 ∧ n ≠ 4 ∧
        facesLoop uv false fs elems subs =
          Except.error ("encountered a face with " ++ toString n ++ " vertices") := by
  intro fs
  induction fs with
  | nil => rintro elems subs ⟨f, hf, _⟩; exact absurd hf (by simp)
  | cons f rest ih =>
    rintro elems subs ⟨f0, hf0, hbad⟩
    rw [List.mem_cons] at hf0
    by_cases hv : f.vertices.length = 3 ∨ f.vertices.length = 4
    · have hf0' : f0 ∈ rest := by
        rcases hf0 with rfl | h'
        · exact absurd hv (by tauto)
        · exact h'
      obtain ⟨n, hn3, hn4, herr⟩ := ih
        (elems ++ [Element.mk
          (if f.vertices.length = 3 then "triangle" else "quad")
          [("id", AttrVal.str (toString f.index)),
           ("smooth", AttrVal.str (boolLower f.use_smooth))]
          ((List.range f.vertices.length).map (faceCorner f uv))])
        (upsertFaces subs f.material_index f)
        ⟨f0, hf0', hbad⟩
      refine ⟨n, hn3, hn4, ?_⟩
      rw [facesLoop, face_to_xml_valid f uv hv, except_ok_bind]
      exact herr
    · refine ⟨f.vertices.length, fun h3 => hv (Or.inl h3), fun h4 => hv (Or.inr h4), ?_⟩
      rw [facesLoop, face_to_xml_invalid f uv false hv, except_error_bind]

/-- Amended claim C5: a mesh containing a polygon whose vertex count is
not 3 and not 4 makes the whole export fail with a topology error
reporting the offending vertex count — the error value of to_xml means no
document, not even a partial one, is produced — but the error message
does not identify which polygon offended. -/
theorem claim_C5 :
    ∀ (mesh : MeshData) (arm : Option ArmData),
      (∃ f ∈ mesh.polygons, f.vertices.length ≠ 3 ∧ f.vertices.length ≠ 4) →
      isTopologyError (to_xml mesh arm) := by
  intro mesh arm hbad
  obtain ⟨n, hn3, hn4, herr⟩ := facesLoop_error mesh.uv_active mesh.polygons [] [] hbad
  have hdet : det4 transform_rotation = 1 := by
    norm_num [det4, det3, transform_rotation, transform_vertex, get_rotation,
      get_without_translation]
  have hflip : flips_chirality transform_rotation = false := by
    simp [flips_chirality, hdet]
  refine ⟨n, hn3, hn4, ?_⟩
  rw [to_xml, mesh_to_xml, hflip, herr]

/-- Counterexample to claim C5 as stated: a mesh whose only polygon has
id 7 and five vertices aborts with the message "encountered a face with
5 vertices", which reports the vertex count but does not name the
offending polygon (the id 7 does not occur in it). -/
theorem claim_C5_counterexample :
    exceptErr (to_xml exBadMesh none) = some "encountered a face with 5 vertices" ∧
    strContains "encountered a face with 5 vertices" "7" = false := by
  constructor
  · decide
  · decide

/-- Witness for claim C5: the amended claim applied at the concrete
five-vertex-polygon mesh. -/
theorem claim_C5_witness : isTopologyError (to_xml exBadMesh none) :=
  claim_C5 exBadMesh none (by decide)

theorem listPrefixEq_subset :
    ∀ (l p : List Char), listPrefixEq l p = true → ∀ c ∈ p, c ∈ l := by
  intro l
  induction l with
  | nil =>
    intro p h c hc
    cases p with
    | nil => exact absurd hc (by simp)
    | cons b p' => exact absurd h (by simp [listPrefixEq])
  | cons a t ih =>
    intro p h c hc
    cases p with
    | nil => exact absurd hc (by simp)
    | cons b p' =>
      simp only [listPrefixEq, Bool.and_eq_true, beq_iff_eq] at h
      obtain ⟨rfl, hpre⟩ := h
      rcases List.mem_cons.mp hc with rfl | hc'
      · exact List.mem_cons_self _ _
      · exact List.mem_cons_of_mem _ (ih p' hpre c hc')

theorem listContainsSub_subset :
    ∀ (l p : List Char), listContainsSub l p = true → ∀ c ∈ p, c ∈ l := by
  intro l
  induction l with
  | nil =>
    intro p h c hc
    exact listPrefixEq_subset [] p h c hc
  | cons a t ih =>
    intro p h c hc
    simp only [listContainsSub, Bool.or_eq_true] at h
    rcases h with h | h
    · exact listPrefixEq_subset (a :: t) p h c hc
    · exact List.mem_cons_of_mem _ (ih p h c hc)

theorem listPrefixEq_append (p b : List Char) : listPrefixEq (p ++ b) p = true := by
  induction p with
  | nil => cases b <;> simp [listPrefixEq]
  | cons a t ih => simp [listPrefixEq, ih]

theorem listContainsSub_of_prefix (l p : List Char) (h : listPrefixEq l p = true) :
    listContainsSub l p = true := by
  cases l <;> simp [listContainsSub, h]

theorem listContainsSub_append (a p b : List Char) :
    listContainsSub (a ++ (p ++ b)) p = true := by
  induction a with
  | nil =>
    rw [List.nil_append]
    exact listContainsSub_of_prefix _ _ (listPrefixEq_append p b)
  | cons x rest ih =>
    simp [listContainsSub, ih]

theorem strEndsWith_scale_has_dot (path : String)
    (h : strEndsWith path ".scale" = true) : '.' ∈ path.data := by
  rw [strEndsWith, decide_eq_true_eq] at h
  have hmem : '.' ∈ path.data.drop (path.data.length - ".scale".data.length) := by
    rw [h]; decide
  exact List.drop_subset _ _ hmem

theorem scale_msg_no_path (path : String) (h : strEndsWith path ".scale" = true) :
    strContains "scale bone modifiers are not supported" path = false := by
  by_contra hc
  rw [Bool.not_eq_false] at hc
  have : '.' ∈ ("scale bone modifiers are not supported" : String).data :=
    listContainsSub_subset _ _ hc '.' (strEndsWith_scale_has_dot path h)
  exact absurd this (by decide)

/-- Amended claim C6: channels ending in .rotation_quaternion with array
index 0-3 classify as rotation w/x/y/z, channels ending in .location with
array index 0-2 classify as location x/y/z; a .scale suffix fails with
the fixed message "scale bone modifiers are not supported", which does
not name the offending path; any other unrecognised suffix fails with an
unsupported-feature message that names the offending path. -/
theorem claim_C6 :
    ∀ (path : String) (index : ℕ),
      (strEndsWith path ".rotation_quaternion" = true →
        get_curve_property_type path index =
          Except.ok (if index = 0 then some CurvePropertyType.ROT_W
            else if index = 1 then some CurvePropertyType.ROT_X
            else if index = 2 then some CurvePropertyType.ROT_Y
            else if index = 3 then some CurvePropertyType.ROT_Z
            else none)) ∧
      (strEndsWith path ".rotation_quaternion" = false →
        strEndsWith path ".location" = true →
        get_curve_property_type path index =
          Except.ok (if index = 0 then some CurvePropertyType.LOC_X
            else if index = 1 then some CurvePropertyType.LOC_Y
            else if index = 2 then some CurvePropertyType.LOC_Z
            else none)) ∧
      (strEndsWith path ".rotation_quaternion" = false →
        strEndsWith path ".location" = false →
        strEndsWith path ".scale" = true →
        get_curve_property_type path index =
          Except.error "scale bone modifiers are not supported" ∧
        strContains "scale bone modifiers are not supported" path = false) ∧
      (strEndsWith path ".rotation_quaternion" = false →
        strEndsWith path ".location" = false →
        strEndsWith path ".scale" = false →
        get_curve_property_type path index =
          Except.error ("unsupported bone modifier: \"" ++ path ++ "\"") ∧
        strContains ("unsupported bone modifier: \"" ++ path ++ "\"") path = true) := by
  intro path index
  refine ⟨?_, ?_, ?_, ?_⟩
  · intro h1
    simp only [get_curve_property_type, h1, if_true]
    split_ifs <;> rfl
  · intro h1 h2
    simp only [get_curve_property_type, h1, h2, if_true, Bool.false_eq_true, if_false]
    split_ifs <;> rfl
  · intro h1 h2 h3
    refine ⟨by simp [get_curve_property_type, h1, h2, h3], scale_msg_no_path path h3⟩
  · intro h1 h2 h3
    refine ⟨by simp [get_curve_property_type, h1, h2, h3], ?_⟩
    show listContainsSub _ _ = true
    rw [String.data_append, String.data_append, List.append_assoc]
    exact listContainsSub_append _ _ _

/-- Witness for claim C6: concrete classifications and failures obtained
by applying the claim at concrete paths — a rotation component, a scale
channel whose message does not contain its path, and an unrecognised
suffix whose message does contain its path. -/
theorem claim_C6_witness :
    get_curve_property_type "pose.bones[\"B\"].rotation_quaternion" 2 =
      Except.ok (some CurvePropertyType.ROT_Y) ∧
    (get_curve_property_type "pose.bones[\"B\"].scale" 0 =
        Except.error "scale bone modifiers are not supported" ∧
      strContains "scale bone modifiers are not supported" "pose.bones[\"B\"].scale" = false) ∧
    (get_curve_property_type "pose.bones[\"B\"].hide" 0 =
        Except.error "unsupported bone modifier: \"pose.bones[\"B\"].hide\"" ∧
      strContains "unsupported bone modifier: \"pose.bones[\"B\"].hide\""
        "pose.bones[\"B\"].hide" = true) := by
  refine ⟨?_, ?_, ?_⟩
  · have := (claim_C6 "pose.bones[\"B\"].rotation_quaternion" 2).1 (by decide)
    simpa using this
  · exact (claim_C6 "pose.bones[\"B\"].scale" 0).2.2.1 (by decide) (by decide) (by decide)
  · exact (claim_C6 "pose.bones[\"B\"].hide" 0).2.2.2 (by decide) (by decide) (by decide)

/-- Counterexample to claim C6 as stated: the classification of a
channel whose path ends in .scale fails with the fixed message "scale
bone modifiers are not supported", and that message does not contain the
offending path, so the scale-suffix error does not name the path. -/
theorem claim_C6_counterexample :
    get_curve_property_type "pose.bones[\"B\"].scale" 1 =
      Except.error "scale bone modifiers are not supported" ∧
    strContains "scale bone modifiers are not supported"
      "pose.bones[\"B\"].scale" = false := by
  decide

/-- Claim C7 (code bug): for a face of a mesh with no active UV layer,
the source assigns the raw Python float 0.0 as the tex_u / tex_v
attribute values instead of the formatted string — every other float
attribute goes through format_float, which renders 0.0 as "0.0000e+00" —
so the default texture coordinates are not rendered under the
floating-point formatting contract. -/
theorem claim_C7 :
    (face_to_xml exFace none false).map (fun el => el.children.map Element.attrib) =
      Except.ok
        [[("vertex_id", AttrVal.str "4"), ("tex_u", AttrVal.float 0), ("tex_v", AttrVal.float 0)],
         [("vertex_id", AttrVal.str "5"), ("tex_u", AttrVal.float 0), ("tex_v", AttrVal.float 0)],
         [("vertex_id", AttrVal.str "6"), ("tex_u", AttrVal.float 0), ("tex_v", AttrVal.float 0)]] ∧
    format_float 0 = "0.0000e+00" ∧
    (AttrVal.float 0 == AttrVal.str "0.0000e+00") = false := by
  refine ⟨by decide, by decide, by decide⟩

theorem mem_getD_iff (o : Option (List ℕ)) (i : ℕ) :
    (∃ l, o = some l ∧ i ∈ l) ↔ i ∈ o.getD [] := by
  cases o <;> simp

theorem lookupGroup_upsertAppend (m : List (String × List ℕ)) (name : String) (i : ℕ)
    (n : String) :
    lookupGroup (upsertAppend m name i) n =
      if n = name then some ((lookupGroup m name).getD [] ++ [i]) else lookupGroup m n := by
  induction m with
  | nil =>
    by_cases h : name = n
    · subst h; simp [upsertAppend, lookupGroup]
    · have h' : ¬ n = name := fun hh => h hh.symm
      simp [upsertAppend, lookupGroup, h, h']
  | cons hd tl ih =>
    obtain ⟨k, l⟩ := hd
    by_cases hk : k = name
    · subst hk
      by_cases hn : n = k
      · subst hn; simp [upsertAppend, lookupGroup]
      · have hkn : ¬ k = n := fun hh => hn hh.symm
        simp [upsertAppend, lookupGroup, hkn, hn]
    · by_cases hn : n = k
      · subst hn
        have hnname : ¬ n = name := fun hh => hk (hh ▸ rfl)
        simp [upsertAppend, lookupGroup, hk, hnname]
      · have hkn : ¬ k = n := fun hh => hn hh.symm
        simp [upsertAppend, lookupGroup, hk, hkn, hn, ih]

theorem memGroup_upsert (m : List (String × List ℕ)) (name : String) (j : ℕ)
    (n : String) (i : ℕ) :
    i ∈ (lookupGroup (upsertAppend m name j) n).getD [] ↔
      i ∈ (lookupGroup m n).getD [] ∨ (n = name ∧ i = j) := by
  rw [lookupGroup_upsertAppend]
  by_cases hn : n = name
  · subst hn
    simp
  · simp [hn]

theorem memGroup_foldl (ps : List (String × ℕ)) :
    ∀ (acc : List (String × List ℕ)) (n : String) (i : ℕ),
      i ∈ (lookupGroup (ps.foldl (fun m p => upsertAppend m p.1 p.2) acc) n).getD [] ↔
        i ∈ (lookupGroup acc n).getD [] ∨ (n, i) ∈ ps := by
  induction ps with
  | nil => simp
  | cons p rest ih =>
    intro acc n i
    rw [List.foldl_cons, ih, memGroup_upsert]
    simp only [List.mem_cons, Prod.ext_iff]
    tauto

theorem lookupGroup_isSome_upsert (m : List (String × List ℕ)) (name : String) (j : ℕ)
    (n : String) :
    (lookupGroup (upsertAppend m name j) n).isSome ↔
      (lookupGroup m n).isSome ∨ n = name := by
  rw [lookupGroup_upsertAppend]
  by_cases hn : n = name <;> simp [hn]

theorem lookupGroup_isSome_foldl (ps : List (String × ℕ)) :
    ∀ (acc : List (String × List ℕ)) (n : String),
      (lookupGroup (ps.foldl (fun m p => upsertAppend m p.1 p.2) acc) n).isSome ↔
        (lookupGroup acc n).isSome ∨ ∃ j, (n, j) ∈ ps := by
  induction ps with
  | nil => simp
  | cons p rest ih =>
    intro acc n
    rw [List.foldl_cons, ih, lookupGroup_isSome_upsert]
    simp only [List.mem_cons, Prod.ext_iff]
    constructor
    · rintro ((h | rfl) | ⟨j, hj⟩)
      · exact Or.inl h
      · exact Or.inr ⟨p.2, Or.inl ⟨rfl, rfl⟩⟩
      · exact Or.inr ⟨j, Or.inr hj⟩
    · rintro (h | ⟨j, ⟨rfl, rfl⟩ | hj⟩)
      · exact Or.inl (Or.inl h)
      · exact Or.inl (Or.inr rfl)
      · exact Or.inr ⟨j, hj⟩

theorem inner_fold_eq (og : ObjectGroup) (vidx : ℕ) (gs : List ℕ) :
    ∀ (acc : List (String × List ℕ)),
      gs.foldl (fun m g => if og.index = g then upsertAppend m og.name vidx else m) acc =
        (gs.filterMap (fun g => if og.index = g then some (og.name, vidx) else none)).foldl
          (fun m p => upsertAppend m p.1 p.2) acc := by
  induction gs with
  | nil => intro acc; simp
  | cons g rest ih =>
    intro acc
    by_cases hg : og.index = g
    · simp only [List.foldl_cons, List.filterMap_cons, if_pos hg]
      exact ih _
    · simp only [List.foldl_cons, List.filterMap_cons, if_neg hg]
      exact ih acc

theorem middle_fold_eq (v : MVertex) (ogs : List ObjectGroup) :
    ∀ (acc : List (String × List ℕ)),
      ogs.foldl (fun m og =>
          v.groups.foldl (fun m2 g => if og.index = g then upsertAppend m2 og.name v.index else m2) m)
        acc =
        (pairsOfVertex ogs v).foldl (fun m p => upsertAppend m p.1 p.2) acc := by
  induction ogs with
  | nil => intro acc; simp [pairsOfVertex]
  | cons og rest ih =>
    intro acc
    rw [List.foldl_cons, pairsOfVertex, List.foldl_append, ih, inner_fold_eq]

theorem vertices_by_group_eq_pairs (vs : List MVertex) (ogs : List ObjectGroup) :
    vertices_by_group vs ogs =
      (vbgPairs vs ogs).foldl (fun m p => upsertAppend m p.1 p.2) [] := by
  rw [vertices_by_group]
  suffices h : ∀ (acc : List (String × List ℕ)),
      vs.foldl (fun acc v => ogs.foldl (fun acc2 og =>
          v.groups.foldl (fun acc3 g =>
            if og.index = g then upsertAppend acc3 og.name v.index else acc3) acc2) acc) acc =
        (vbgPairs vs ogs).foldl (fun m p => upsertAppend m p.1 p.2) acc from h []
  induction vs with
  | nil => intro acc; simp [vbgPairs]
  | cons v rest ih =>
    intro acc
    rw [List.foldl_cons, vbgPairs, List.foldl_append, ih, middle_fold_eq]

theorem mem_pairsOfVertex (ogs : List ObjectGroup) (v : MVertex) (n : String) (i : ℕ) :
    (n, i) ∈ pairsOfVertex ogs v ↔
      v.index = i ∧ ∃ og ∈ ogs, og.name = n ∧ og.index ∈ v.groups := by
  induction ogs with
  | nil => simp [pairsOfVertex]
  | cons og rest ih =>
    simp only [pairsOfVertex, List.mem_append, ih, List.mem_filterMap, List.mem_cons]
    constructor
    · rintro (⟨g, hg, hif⟩ | ⟨rfl, og', hog', hn, hidx⟩)
      · by_cases hgi : og.index = g
        · rw [if_pos hgi] at hif
          simp only [Option.some.injEq, Prod.mk.injEq] at hif
          obtain ⟨hn, hi⟩ := hif
          exact ⟨hi.symm ▸ rfl, og, Or.inl rfl, hn, hgi ▸ hg⟩
        · rw [if_neg hgi] at hif
          exact absurd hif (by simp)
      · exact ⟨rfl, og', Or.inr hog', hn, hidx⟩
    · rintro ⟨rfl, og', hog' | hog', hn, hidx⟩
      · subst hog'
        exact Or.inl ⟨og'.index, hidx, by simp [hn]⟩
      · exact Or.inr ⟨rfl, og', hog', hn, hidx⟩

theorem mem_vbgPairs (vs : List MVertex) (ogs : List ObjectGroup) (n : String) (i : ℕ) :
    (n, i) ∈ vbgPairs vs ogs ↔
      ∃ v ∈ vs, v.index = i ∧ ∃ og ∈ ogs, og.name = n ∧ og.index ∈ v.groups := by
  induction vs with
  | nil => simp [vbgPairs]
  | cons v rest ih =>
    simp only [vbgPairs, List.mem_append, ih, mem_pairsOfVertex, List.mem_cons]
    constructor
    · rintro (h | ⟨v', hv', hrest⟩)
      · exact ⟨v, Or.inl rfl, h⟩
      · exact ⟨v', Or.inr hv', hrest⟩
    · rintro ⟨v', hv' | hv', hrest⟩
      · subst hv'
        exact Or.inl hrest
      · exact Or.inr ⟨v', hv', hrest⟩

/-- Claim C9: the bone-to-vertices mapping binds a vertex group to a bone
exactly when the group's name is character-for-character equal to the
bone's name: a vertex id is listed under a bone iff some vertex group
whose name equals the bone's name (String equality, case-sensitive)
contains that vertex; a bone with no matching (inhabited) group emits no
vertex list.  Concretely, a group named "spine" does not bind to a bone
named "Spine", while a group named "Spine" does. -/
theorem claim_C9 :
    (∀ (vs : List MVertex) (ogs : List ObjectGroup) (n : String) (i : ℕ),
      (∃ l, lookupGroup (vertices_by_group vs ogs) n = some l ∧ i ∈ l) ↔
        ∃ v ∈ vs, v.index = i ∧ ∃ og ∈ ogs, og.name = n ∧ og.index ∈ v.groups) ∧
    (∀ (vs : List MVertex) (ogs : List ObjectGroup) (am : Mat4) (bone : Bone),
      0 < (bone_to_xml (vertices_by_group vs ogs) am bone).children.length ↔
        ∃ v ∈ vs, ∃ og ∈ ogs, og.name = bone.name ∧ og.index ∈ v.groups) ∧
    ((bone_to_xml (vertices_by_group [exSpineVertex] [⟨0, "spine"⟩]) mat4Id exSpineBone).children.length = 0 ∧
      (bone_to_xml (vertices_by_group [exSpineVertex] [⟨0, "Spine"⟩]) mat4Id exSpineBone).children.length = 1 ∧
      lookupGroup (vertices_by_group [exSpineVertex] [⟨0, "Spine"⟩]) "Spine" = some [7]) := by
  have hmem : ∀ (vs : List MVertex) (ogs : List ObjectGroup) (n : String) (i : ℕ),
      (∃ l, lookupGroup (vertices_by_group vs ogs) n = some l ∧ i ∈ l) ↔
        ∃ v ∈ vs, v.index = i ∧ ∃ og ∈ ogs, og.name = n ∧ og.index ∈ v.groups := by
    intro vs ogs n i
    rw [mem_getD_iff, vertices_by_group_eq_pairs, memGroup_foldl, ← mem_vbgPairs vs ogs n i]
    simp [lookupGroup]
  refine ⟨hmem, ?_, ?_, ?_, ?_⟩
  · intro vs ogs am bone
    rw [bone_to_xml]
    have hsome : (lookupGroup (vertices_by_group vs ogs) bone.name).isSome ↔
        ∃ v ∈ vs, ∃ og ∈ ogs, og.name = bone.name ∧ og.index ∈ v.groups := by
      rw [vertices_by_group_eq_pairs, lookupGroup_isSome_foldl]
      simp only [lookupGroup, Option.isSome_none, Bool.false_eq_true, false_or]
      constructor
      · rintro ⟨j, hj⟩
        obtain ⟨v, hv, _, og, hog, hn, hidx⟩ := (mem_vbgPairs vs ogs bone.name j).mp hj
        exact ⟨v, hv, og, hog, hn, hidx⟩
      · rintro ⟨v, hv, og, hog, hn, hidx⟩
        exact ⟨v.index, (mem_vbgPairs vs ogs bone.name v.index).mpr
          ⟨v, hv, rfl, og, hog, hn, hidx⟩⟩
    rw [← hsome]
    cases lookupGroup (vertices_by_group vs ogs) bone.name <;> simp [Element.children]
  · decide
  · decide
  · decide


theorem log10fuel_spec :
    ∀ (fuel n : ℕ), 1 ≤ n → n ≤ fuel →
      10 ^ log10fuel fuel n ≤ n ∧ n < 10 ^ (log10fuel fuel n + 1) := by
  intro fuel
  induction fuel with
  | zero => intro n h1 h2; omega
  | succ fuel ih =>
    intro n h1 h2
    rw [log10fuel]
    by_cases h : n < 10
    · rw [if_pos h]
      constructor
      · simpa using h1
      · simpa using h
    · rw [if_neg h]
      have hrec := ih (n / 10) (by omega) (by
        have := Nat.div_lt_self (show 0 < n by omega) (show 1 < 10 by omega)
        omega)
      obtain ⟨hlo, hhi⟩ := hrec
      constructor
      · calc 10 ^ (log10fuel fuel (n / 10) + 1) = 10 ^ log10fuel fuel (n / 10) * 10 := by
              rw [pow_succ]
          _ ≤ n / 10 * 10 := Nat.mul_le_mul_right 10 hlo
          _ ≤ n := Nat.div_mul_le_self n 10
      · have hstep : n < (n / 10 + 1) * 10 := by
          have := Nat.div_add_mod n 10
          have : n % 10 < 10 := Nat.mod_lt _ (by omega)
          omega
        calc n < (n / 10 + 1) * 10 := hstep
          _ ≤ 10 ^ (log10fuel fuel (n / 10) + 1) * 10 := Nat.mul_le_mul_right 10 (by omega)
          _ = 10 ^ (log10fuel fuel (n / 10) + 1 + 1) := by ring


theorem log10_spec (n : ℕ) (h : 1 ≤ n) :
    10 ^ log10 n ≤ n ∧ n < 10 ^ (log10 n + 1) :=
  log10fuel_spec n n h le_rfl

theorem sciExp_bounds (n d : ℕ) (hn : 1 ≤ n) (hd : 1 ≤ d) :
    10 ^ 4 * (d * 10 ^ (sciExp n d - 4).toNat) ≤ n * 10 ^ (4 - sciExp n d).toNat ∧
    n * 10 ^ (4 - sciExp n d).toNat < 10 ^ 5 * (d * 10 ^ (sciExp n d - 4).toNat) := by
  by_cases hdn : d ≤ n
  · have hexp : sciExp n d = (log10 (n / d) : ℤ) := by
      simp only [sciExp, if_pos hdn]
    obtain ⟨hlo, hhi⟩ := log10_spec (n / d) ((Nat.one_le_div_iff (by omega)).mpr hdn)
    set e := log10 (n / d) with hedef
    have hA : 10 ^ e * d ≤ n := by
      calc 10 ^ e * d ≤ n / d * d := Nat.mul_le_mul_right d hlo
        _ ≤ n := Nat.div_mul_le_self n d
    have hB : n < 10 ^ (e + 1) * d := by
      have hstep : n < (n / d + 1) * d := by
        have h1 : n % d < d := Nat.mod_lt _ (by omega)
        have h2 : n = d * (n / d) + n % d := (Nat.div_add_mod n d).symm
        calc n = d * (n / d) + n % d := h2
          _ < d * (n / d) + d := by omega
          _ = (n / d + 1) * d := by ring
      calc n < (n / d + 1) * d := hstep
        _ ≤ 10 ^ (e + 1) * d := Nat.mul_le_mul_right d (by omega)
    rw [hexp]
    by_cases he4 : e ≤ 4
    · have h1 : ((e : ℤ) - 4).toNat = 0 := by omega
      have h2 : ((4 : ℤ) - (e : ℤ)).toNat = 4 - e := by omega
      rw [h1, h2, pow_zero, mul_one]
      have hp : 10 ^ e * 10 ^ (4 - e) = 10 ^ 4 := by
        rw [← pow_add]; congr 1; omega
      have hp5 : 10 ^ (e + 1) * 10 ^ (4 - e) = 10 ^ 5 := by
        rw [← pow_add]; congr 1; omega
      constructor
      · calc 10 ^ 4 * d = 10 ^ e * d * 10 ^ (4 - e) := by rw [← hp]; ring
          _ ≤ n * 10 ^ (4 - e) := Nat.mul_le_mul_right _ hA
      · calc n * 10 ^ (4 - e) < 10 ^ (e + 1) * d * 10 ^ (4 - e) :=
              (Nat.mul_lt_mul_right (Nat.pow_pos (by omega))).mpr hB
          _ = 10 ^ 5 * d := by rw [← hp5]; ring
    · have h1 : ((e : ℤ) - 4).toNat = e - 4 := by omega
      have h2 : ((4 : ℤ) - (e : ℤ)).toNat = 0 := by omega
      rw [h1, h2, pow_zero, mul_one]
      have hp : 10 ^ 4 * 10 ^ (e - 4) = 10 ^ e := by
        rw [← pow_add]; congr 1; omega
      have hp5 : 10 ^ 5 * 10 ^ (e - 4) = 10 ^ (e + 1) := by
        rw [← pow_add]; congr 1; omega
      constructor
      · calc 10 ^ 4 * (d * 10 ^ (e - 4)) = 10 ^ e * d := by rw [← hp]; ring
          _ ≤ n := hA
      · calc n < 10 ^ (e + 1) * d := hB
          _ = 10 ^ 5 * (d * 10 ^ (e - 4)) := by rw [← hp5]; ring
  · have hnd : n < d := by omega
    obtain ⟨hlo, hhi⟩ := log10_spec (d / n) ((Nat.one_le_div_iff (by omega)).mpr (by omega))
    set k0 := log10 (d / n) with hk0def
    have hE : 10 ^ k0 * n ≤ d := by
      calc 10 ^ k0 * n ≤ d / n * n := Nat.mul_le_mul_right n hlo
        _ ≤ d := Nat.div_mul_le_self d n
    have hF : d < 10 ^ (k0 + 1) * n := by
      have hstep : d < (d / n + 1) * n := by
        have h1 : d % n < n := Nat.mod_lt _ (by omega)
        have h2 : d = n * (d / n) + d % n := (Nat.div_add_mod d n).symm
        calc d = n * (d / n) + d % n := h2
          _ < n * (d / n) + n := by omega
          _ = (d / n + 1) * n := by ring
      calc d < (d / n + 1) * n := hstep
        _ ≤ 10 ^ (k0 + 1) * n := Nat.mul_le_mul_right n (by omega)
    by_cases hb : d ≤ 10 ^ k0 * n
    · have hexp : sciExp n d = -(k0 : ℤ) := by
        simp only [sciExp, if_neg hdn, if_pos hb]
      have hk1 : 1 ≤ k0 := by
        by_contra hc
        have hz : k0 = 0 := by omega
        rw [hz] at hb
        simp only [pow_zero, one_mul] at hb
        omega
      rw [hexp]
      have h1 : (-(k0 : ℤ) - 4).toNat = 0 := by omega
      have h2 : ((4 : ℤ) - (-(k0 : ℤ))).toNat = 4 + k0 := by omega
      rw [h1, h2, pow_zero, mul_one]
      have hD : 10 ^ (k0 - 1) * n < d := by
        have hlt : 10 ^ (k0 - 1) < 10 ^ k0 :=
          Nat.pow_lt_pow_right (by omega) (by omega)
        calc 10 ^ (k0 - 1) * n < 10 ^ k0 * n :=
            (Nat.mul_lt_mul_right (by omega : 0 < n)).mpr hlt
          _ ≤ d := hE
      constructor
      · have hp : 10 ^ 4 * 10 ^ k0 = 10 ^ (4 + k0) := by rw [← pow_add]
        calc 10 ^ 4 * d ≤ 10 ^ 4 * (10 ^ k0 * n) := Nat.mul_le_mul_left _ hb
          _ = n * 10 ^ (4 + k0) := by rw [← hp]; ring
      · have hp : 10 ^ 5 * 10 ^ (k0 - 1) = 10 ^ (4 + k0) := by
          rw [← pow_add]; congr 1; omega
        calc n * 10 ^ (4 + k0) = 10 ^ 5 * (10 ^ (k0 - 1) * n) := by rw [← hp]; ring
          _ < 10 ^ 5 * d := (Nat.mul_lt_mul_left (by norm_num : (0:ℕ) < 10 ^ 5)).mpr hD
    · have hexp : sciExp n d = -((k0 : ℤ) + 1) := by
        simp only [sciExp, if_neg hdn, if_neg hb]
      rw [hexp]
      have hC : d ≤ 10 ^ (k0 + 1) * n := le_of_lt hF
      have hD : 10 ^ k0 * n < d := by omega
      have h1 : (-((k0 : ℤ) + 1) - 4).toNat = 0 := by omega
      have h2 : ((4 : ℤ) - (-((k0 : ℤ) + 1))).toNat = 5 + k0 := by omega
      rw [h1, h2, pow_zero, mul_one]
      constructor
      · have hp : 10 ^ 4 * 10 ^ (k0 + 1) = 10 ^ (5 + k0) := by
          rw [← pow_add, show 4 + (k0 + 1) = 5 + k0 by omega]
        calc 10 ^ 4 * d ≤ 10 ^ 4 * (10 ^ (k0 + 1) * n) := Nat.mul_le_mul_left _ hC
          _ = n * 10 ^ (5 + k0) := by rw [← hp]; ring
      · have hp : 10 ^ 5 * 10 ^ k0 = 10 ^ (5 + k0) := by rw [← pow_add]
        calc n * 10 ^ (5 + k0) = 10 ^ 5 * (10 ^ k0 * n) := by rw [← hp]; ring
          _ < 10 ^ 5 * d := (Nat.mul_lt_mul_left (by norm_num : (0:ℕ) < 10 ^ 5)).mpr hD

theorem roundHalfEven_bounds (n d : ℕ) (hd : 0 < d)
    (h1 : 10 ^ 4 * d ≤ n) (h2 : n < 10 ^ 5 * d) :
    10 ^ 4 ≤ roundHalfEven n d ∧ roundHalfEven n d ≤ 10 ^ 5 := by
  have hq1 : 10 ^ 4 ≤ n / d := (Nat.le_div_iff_mul_le hd).mpr h1
  have hq2 : n / d < 10 ^ 5 := (Nat.div_lt_iff_lt_mul hd).mpr h2
  have e4 : (10 : ℕ) ^ 4 = 10000 := by norm_num
  have e5 : (10 : ℕ) ^ 5 = 100000 := by norm_num
  simp only [roundHalfEven]
  split_ifs <;> omega

theorem sciMantExp_fst_bounds (n d : ℕ) (hn : 1 ≤ n) (hd : 1 ≤ d) :
    10 ^ 4 ≤ (sciMantExp n d).1 ∧ (sciMantExp n d).1 < 10 ^ 5 := by
  obtain ⟨hb1, hb2⟩ := sciExp_bounds n d hn hd
  have hdpos : 0 < d * 10 ^ (sciExp n d - 4).toNat :=
    Nat.mul_pos (by omega) (Nat.pow_pos (by omega))
  obtain ⟨hr1, hr2⟩ := roundHalfEven_bounds _ _ hdpos hb1 hb2
  simp only [sciMantExp]
  split_ifs with h
  · constructor <;> norm_num
  · refine ⟨hr1, ?_⟩
    have e5 : (10 : ℕ) ^ 5 = 100000 := by norm_num
    omega

theorem digitChar_isDigit (k : ℕ) (h : k < 10) : (Nat.digitChar k).isDigit = true := by
  interval_cases k <;> decide

theorem digitChar_ne_minus (k : ℕ) (h : k < 10) : ¬ Nat.digitChar k = '-' := by
  interval_cases k <;> decide

theorem natDigitsFix_four (m : ℕ) :
    natDigitsFix 4 m =
      [Nat.digitChar (m / 10 / 10 / 10 % 10), Nat.digitChar (m / 10 / 10 % 10),
       Nat.digitChar (m / 10 % 10), Nat.digitChar (m % 10)] := rfl

theorem digitsOnly_append (a b : List Char) :
    digitsOnly (a ++ b) = (digitsOnly a && digitsOnly b) := by
  induction a with
  | nil => simp [digitsOnly]
  | cons c r ih => simp [digitsOnly, ih, Bool.and_assoc]

theorem natDigits_digitsOnly (n : ℕ) : digitsOnly (natDigits n) = true := by
  induction n using Nat.strong_induction_on with
  | _ n ih =>
    rw [natDigits]
    split_ifs with h
    · simp [digitsOnly, digitChar_isDigit n h]
    · rw [digitsOnly_append]
      have hrec := ih (n / 10) (Nat.div_lt_self (by omega) (by omega))
      simp [hrec, digitsOnly, digitChar_isDigit (n % 10) (Nat.mod_lt _ (by omega))]

theorem natDigits_length_pos (n : ℕ) : 1 ≤ (natDigits n).length := by
  rw [natDigits]
  split_ifs with h
  · simp
  · simp

theorem natDigits_length_two (n : ℕ) (h : 10 ≤ n) : 2 ≤ (natDigits n).length := by
  rw [natDigits]
  rw [dif_neg (by omega)]
  have := natDigits_length_pos (n / 10)
  simp only [List.length_append, List.length_cons, List.length_nil]
  omega

theorem sciCheckExp_holds (e2 : ℤ) :
    sciCheckExp ((if e2 < 0 then '-' else '+') ::
      (if e2.natAbs < 10 then ['0', Nat.digitChar e2.natAbs] else natDigits e2.natAbs)) = true := by
  rw [sciCheckExp]
  have hsign : ((if e2 < 0 then '-' else '+') == '+' || (if e2 < 0 then '-' else '+') == '-') = true := by
    split_ifs <;> decide
  rw [hsign]
  by_cases habs : e2.natAbs < 10
  · rw [if_pos habs]
    simp [digitsOnly, digitChar_isDigit e2.natAbs habs]
  · rw [if_neg habs]
    simp [natDigits_digitsOnly, natDigits_length_two e2.natAbs (by omega)]

theorem sciCheckMant_core (n2 : ℕ) (e2 : ℤ) (h : n2 / 10000 < 10) :
    sciCheckMant (Nat.digitChar (n2 / 10000) :: '.' ::
      (natDigitsFix 4 (n2 % 10000) ++ 'e' :: (if e2 < 0 then '-' else '+') ::
        (if e2.natAbs < 10 then ['0', Nat.digitChar e2.natAbs] else natDigits e2.natAbs))) = true := by
  have hten : 0 < 10 := by norm_num
  have hd0 := digitChar_isDigit (n2 / 10000) h
  have hd1 := digitChar_isDigit (n2 % 10000 / 10 / 10 / 10 % 10) (Nat.mod_lt _ hten)
  have hd2 := digitChar_isDigit (n2 % 10000 / 10 / 10 % 10) (Nat.mod_lt _ hten)
  have hd3 := digitChar_isDigit (n2 % 10000 / 10 % 10) (Nat.mod_lt _ hten)
  have hd4 := digitChar_isDigit (n2 % 10000 % 10) (Nat.mod_lt _ hten)
  rw [natDigitsFix_four]
  simp only [List.cons_append, List.nil_append]
  simp [sciCheckMant, hd0, hd1, hd2, hd3, hd4, sciCheckExp_holds]

theorem renderSci_false (n2 : ℕ) (e2 : ℤ) :
    renderSci false n2 e2 = String.mk (Nat.digitChar (n2 / 10000) :: '.' ::
      (natDigitsFix 4 (n2 % 10000) ++ 'e' :: (if e2 < 0 then '-' else '+') ::
        (if e2.natAbs < 10 then ['0', Nat.digitChar e2.natAbs] else natDigits e2.natAbs))) := by
  simp [renderSci]

theorem renderSci_true (n2 : ℕ) (e2 : ℤ) :
    renderSci true n2 e2 = String.mk ('-' :: Nat.digitChar (n2 / 10000) :: '.' ::
      (natDigitsFix 4 (n2 % 10000) ++ 'e' :: (if e2 < 0 then '-' else '+') ::
        (if e2.natAbs < 10 then ['0', Nat.digitChar e2.natAbs] else natDigits e2.natAbs))) := by
  simp [renderSci]

theorem isSciFormat_mk (c : Char) (rest : List Char) :
    isSciFormat (String.mk (c :: rest)) =
      if c = '-' then sciCheckMant rest else sciCheckMant (c :: rest) := rfl

theorem mantissaHead_mk (c : Char) (rest : List Char) :
    mantissaHead (String.mk (c :: rest)) =
      if c = '-' then rest.head? else some c := rfl

theorem isSciFormat_renderSci (neg : Bool) (n2 : ℕ) (e2 : ℤ)
    (h1 : 10 ^ 4 ≤ n2) (h2 : n2 < 10 ^ 5) :
    isSciFormat (renderSci neg n2 e2) = true := by
  have e4 : (10 : ℕ) ^ 4 = 10000 := by norm_num
  have e5 : (10 : ℕ) ^ 5 = 100000 := by norm_num
  have hd10 : n2 / 10000 < 10 := by
    rw [Nat.div_lt_iff_lt_mul (by norm_num)]
    omega
  cases neg with
  | false =>
    rw [renderSci_false, isSciFormat_mk, if_neg (digitChar_ne_minus _ hd10)]
    exact sciCheckMant_core n2 e2 hd10
  | true =>
    rw [renderSci_true, isSciFormat_mk, if_pos rfl]
    exact sciCheckMant_core n2 e2 hd10

theorem mantissaHead_renderSci (neg : Bool) (n2 : ℕ) (e2 : ℤ) (h : n2 / 10000 < 10) :
    mantissaHead (renderSci neg n2 e2) = some (Nat.digitChar (n2 / 10000)) := by
  cases neg with
  | false =>
    rw [renderSci_false, mantissaHead_mk, if_neg (digitChar_ne_minus _ h)]
  | true =>
    rw [renderSci_true, mantissaHead_mk, if_pos rfl]
    rfl

/-- Claim C8: the float-to-text rendering is deterministic (a pure
function of the value) and yields normalized scientific notation with
exactly four fractional digits for every input: the output always
matches the sign-digit-point-four-digits-exponent shape, its leading
mantissa digit is nonzero for every nonzero input, 12.345 renders
exactly as "1.2345e+01" and 0 renders exactly as "0.0000e+00". -/
theorem claim_C8 :
    (∀ q : ℚ, isSciFormat (format_float q) = true) ∧
    (∀ q : ℚ, q ≠ 0 → normalizedHead (format_float q)) ∧
    (∀ q : ℚ, q = 12345 / 1000 → format_float q = "1.2345e+01") ∧
    format_float 0 = "0.0000e+00" := by
  have hmain : ∀ q : ℚ, q ≠ 0 →
      format_float q = renderSci (decide (q < 0)) (sciMantExp q.num.natAbs q.den).1
        (sciMantExp q.num.natAbs q.den).2 := by
    intro q h0
    simp only [format_float, if_neg h0]
  have hnum : ∀ q : ℚ, q ≠ 0 → 1 ≤ q.num.natAbs := by
    intro q h0
    have h1 : q.num ≠ 0 := Rat.num_ne_zero.mpr h0
    have := Int.natAbs_pos.mpr h1
    omega
  have hden : ∀ q : ℚ, 1 ≤ q.den := fun q => Nat.pos_of_ne_zero q.den_nz
  refine ⟨?_, ?_, ?_, by decide⟩
  · intro q
    by_cases h0 : q = 0
    · subst h0; decide
    · rw [hmain q h0]
      obtain ⟨hb1, hb2⟩ := sciMantExp_fst_bounds q.num.natAbs q.den (hnum q h0) (hden q)
      exact isSciFormat_renderSci _ _ _ hb1 hb2
  · intro q h0
    rw [normalizedHead, hmain q h0]
    obtain ⟨hb1, hb2⟩ := sciMantExp_fst_bounds q.num.natAbs q.den (hnum q h0) (hden q)
    have e4 : (10 : ℕ) ^ 4 = 10000 := by norm_num
    have e5 : (10 : ℕ) ^ 5 = 100000 := by norm_num
    have hk1 : 1 ≤ (sciMantExp q.num.natAbs q.den).1 / 10000 :=
      (Nat.le_div_iff_mul_le (by norm_num)).mpr (by omega)
    have hk9 : (sciMantExp q.num.natAbs q.den).1 / 10000 < 10 :=
      (Nat.div_lt_iff_lt_mul (by norm_num)).mpr (by omega)
    exact ⟨(sciMantExp q.num.natAbs q.den).1 / 10000, hk1, by omega,
      mantissaHead_renderSci _ _ _ hk9⟩
  · intro q hq
    have hq12 : (12345 / 1000 : ℚ) = q12_345 := by
      rw [q12_345, Rat.mk'_eq_divInt, Rat.divInt_eq_div]
      norm_num
    rw [hq, hq12]
    decide

/-- Witness for claim C8: the rendering of the concrete value 12.345,
obtained by applying the claim there, is exactly "1.2345e+01", with a
nonzero leading mantissa digit. -/
theorem claim_C8_witness :
    normalizedHead (format_float q12_345) ∧ format_float q12_345 = "1.2345e+01" :=
  ⟨claim_C8.2.1 q12_345 (by decide),
   claim_C8.2.2.1 q12_345 (by
      rw [q12_345, Rat.mk'_eq_divInt, Rat.divInt_eq_div]
      norm_num)⟩
